import Mathlib

/-!
# Verification of the ytstrm sync engine and manifest resolver

Shallow embedding of the core of `ytstrm` (a Rust service that tracks
YouTube channels/playlists, materializes `.strm` stub files for a media
library, and resolves/filters/caches HLS manifests on playback).

Rust strings are modelled as `List Char` (`Str`); Rust's fallible and
effectful operations are modelled by explicit environments, `Option` /
`Except` results, filesystem snapshots (`List Str` of paths) and effect
traces.  A Rust panic (out-of-bounds index) is modelled as `none`.

Sources embedded here: `src/manifest.rs` (ManifestCache, the filter
algorithm, the fetch pipeline), `src/main.rs` (`stream_youtube`,
`direct_mp4_streaming`) and `src/config.rs` (`scan_videos`,
`process_video`, `process_new_videos`).
-/

namespace YtStrm

/-- Rust `String` / `&str` modelled as a list of characters. -/
abbrev Str := List Char

/-- Character data of a Lean string literal. -/
def str (s : String) : Str := s.data

/-! ## Rust string primitives -/

/-- Rust `str::contains(pat)`: substring test. -/
def containsSub (pat : Str) : Str → Bool
  | [] => pat.isEmpty
  | c :: cs => pat.isPrefixOf (c :: cs) || containsSub pat cs

/-- Worker for `splitP`; structural recursion on a fuel counter so that
the kernel can evaluate it (each step consumes at least one character of
a nonempty pattern, so `s.length + 1` units of fuel always suffice and
the fuel-0 fallback is unreachable). -/
def splitPGo (pat : Str) : Nat → Str → List Str
  | 0, s => [s]
  | _ + 1, [] => [[]]
  | fuel + 1, c :: cs =>
    if pat.isPrefixOf (c :: cs) then
      [] :: splitPGo pat fuel ((c :: cs).drop pat.length)
    else
      match splitPGo pat fuel cs with
      | [] => [[c]]
      | piece :: rest => (c :: piece) :: rest

/-- Rust `str::split(pat)` for a nonempty pattern: the pieces between
consecutive non-overlapping occurrences of `pat`, scanned left to right.
(For an empty pattern we return `[s]`; the program only ever splits on
nonempty literals.) -/
def splitP (pat : Str) (s : Str) : List Str :=
  if pat = [] then [s] else splitPGo pat (s.length + 1) s

/-- ASCII decimal digit test. -/
def isDigitCh (c : Char) : Bool := '0' ≤ c && c ≤ '9'

/-- Value of a digit string (assumes digits). -/
def digitsVal (cs : Str) : Nat := cs.foldl (fun n c => n * 10 + (c.toNat - '0'.toNat)) 0

/-- Decimal parse of a nonempty all-digit string. -/
def parseNatDigits (cs : Str) : Option Nat :=
  if cs ≠ [] ∧ cs.all isDigitCh then some (digitsVal cs) else none

/-- Rust `str::parse::<u32>()`: optional leading `+`, decimal digits,
rejects values `≥ 2^32`. -/
def parseU32 (cs : Str) : Option Nat :=
  let body := match cs with
    | '+' :: rest => rest
    | _ => cs
  match parseNatDigits body with
  | some n => if n < 2 ^ 32 then some n else none
  | none => none

/-- Strip one trailing carriage return (the `\r` of a `\r\n` terminator). -/
def stripCR (l : Str) : Str :=
  if l.getLast? = some '\r' then l.dropLast else l

/-- Split at every `'\n'`; the result is always nonempty. -/
def splitNl : Str → List Str
  | [] => [[]]
  | c :: cs =>
    if c = '\n' then [] :: splitNl cs
    else match splitNl cs with
      | [] => [[c]]
      | piece :: rest => (c :: piece) :: rest

/-- All pieces but the last were terminated by `'\n'`, so they lose a
trailing `'\r'`; the final piece is dropped when empty (optional final
line ending), otherwise kept verbatim. -/
def rustLinesAux : List Str → List Str
  | [] => []
  | [p] => if p = [] then [] else [p]
  | p :: q :: rest => stripCR p :: rustLinesAux (q :: rest)

/-- Rust `str::lines()`. -/
def rustLines (s : Str) : List Str := rustLinesAux (splitNl s)

/-! ## Manifest filter (`src/manifest.rs`, `filter_and_modify_manifest`) -/

/-- The mutable locals of the scan loop of `filter_and_modify_manifest`:
collected variant tuples `(bandwidth, declaration line, url line)` in
encounter order, and the four audio slots. -/
structure ScanState where
  video_streams : List (Nat × Str × Str)
  high_audio_default : Option Str
  high_audio_backup : Option Str
  sd_audio_default : Option Str
  sd_audio_backup : Option Str
deriving DecidableEq, Repr

def initScan : ScanState := ⟨[], none, none, none, none⟩

/-- `BANDWIDTH` extraction from a variant declaration line:
`info.split("BANDWIDTH=").nth(1).and_then(|s| s.split(',').next())`
then `parse::<u32>()`. -/
def parseBandwidth (line : Str) : Option Nat :=
  match (splitP (str "BANDWIDTH=") line)[1]? with
  | none => none
  | some piece =>
    match (splitP [','] piece).head? with
    | none => none
    | some bwStr => parseU32 bwStr

/-- The `#EXT-X-MEDIA` branch of the scan loop: classify into
{high (contains "234"), standard} × {default (`DEFAULT=YES`), backup};
a backup slot is only written while the same tier's default slot is empty. -/
def updateAudio (st : ScanState) (line : Str) : ScanState :=
  let is_default := containsSub (str "DEFAULT=YES") line
  if containsSub (str "234") line then
    if is_default then { st with high_audio_default := some line }
    else if st.high_audio_default = none then { st with high_audio_backup := some line }
    else st
  else if is_default then { st with sd_audio_default := some line }
  else if st.sd_audio_default = none then { st with sd_audio_backup := some line }
  else st

/-- The `while i < lines.len()` loop.  A variant declaration reads
`lines[i + 1]` unconditionally; when no such line exists the Rust code
panics (index out of bounds), modelled as `none`. -/
def scanLines : List Str → ScanState → Option ScanState
  | [], st => some st
  | line :: rest, st =>
    if (str "#EXT-X-STREAM-INF:").isPrefixOf line then
      match rest with
      | [] => none
      | url :: rest2 =>
        let st2 := match parseBandwidth line with
          | some bw => { st with video_streams := st.video_streams ++ [(bw, line, url)] }
          | none => st
        scanLines rest2 st2
    else if (str "#EXT-X-MEDIA:").isPrefixOf line && containsSub (str "URI") line then
      scanLines rest (updateAudio st line)
    else
      scanLines rest st

/-- Audio priority: `high_audio_default.or(sd_audio_default)
.or(high_audio_backup).or(sd_audio_backup)`. -/
def chooseAudio (st : ScanState) : Option Str :=
  (st.high_audio_default.or st.sd_audio_default).or
    (st.high_audio_backup.or st.sd_audio_backup)

/-- `video_streams.sort_by(|a, b| b.0.cmp(&a.0))`: a stable sort into
non-increasing bandwidth order (Rust's `sort_by` and `mergeSort` are both
stable, hence agree). -/
def sortStreams (l : List (Nat × Str × Str)) : List (Nat × Str × Str) :=
  l.mergeSort (fun a b => b.1 ≤ a.1)

/-- The output lines: fixed two-line header, optional audio line, then
each kept variant's declaration line followed by its url line. -/
def render_lines (audio : Option Str) (streams : List (Nat × Str × Str)) : List Str :=
  [str "#EXTM3U", str "#EXT-X-INDEPENDENT-SEGMENTS"] ++ audio.toList ++
    streams.flatMap (fun t => [t.2.1, t.2.2])

/-- Concatenate lines, each followed by `'\n'` (the Rust code pushes a
newline after every line it appends to `final_manifest`). -/
def renderStr (ls : List Str) : Str := (ls.map (· ++ ['\n'])).flatten

/-- `filter_and_modify_manifest`; `none` models the out-of-bounds panic. -/
def filter_and_modify_manifest (content : Str) : Option Str :=
  (scanLines (rustLines content) initScan).map fun st =>
    renderStr (render_lines (chooseAudio st) ((sortStreams st.video_streams).take 3))

/-- The trailing-newline normalization in `fetch_and_filter_manifest`. -/
def ensureTrailingNewline (m : Str) : Str :=
  if m.getLast? = some '\n' then m else m ++ ['\n']

/-- Filter plus trailing-newline normalization, the pure tail of
`fetch_and_filter_manifest` applied to a fetched manifest body. -/
def filterPipeline (content : Str) : Option Str :=
  (filter_and_modify_manifest content).map ensureTrailingNewline

/-- The variant tuples the filter keeps: sorted, truncated to three. -/
def keptStreams (st : ScanState) : List (Nat × Str × Str) :=
  (sortStreams st.video_streams).take 3

/-! ## Manifest cache validity (`src/manifest.rs`, `ManifestCache`) -/

structure ManifestCache where
  video_id : Str
  content : Str
  expires : Nat
deriving DecidableEq

/-- `is_valid`: an entry is considered invalid 5 minutes before its
actual expiration. `now` is the current epoch time in seconds. -/
def ManifestCache.is_valid (c : ManifestCache) (now : Nat) : Bool :=
  decide (c.expires > now + 300)

/-! ## Playback path (`src/main.rs`: `stream_youtube`, `direct_mp4_streaming`,
and the effectful part of `src/manifest.rs`: `fetch_and_filter_manifest`) -/

/-- Error labels for the `Err` exits of `fetch_and_filter_manifest`. -/
inductive FetchErr
  | execFailed        -- spawning yt-dlp failed
  | exitNonzero       -- yt-dlp exited with failure status
  | emptyOutput       -- yt-dlp produced no stdout
  | jsonParse         -- stdout is not valid JSON
  | noManifestUrl     -- no format exposes a manifest_url string
  | httpFailed        -- fetching the manifest over HTTP failed
  | missingSignature  -- body lacks the "#EXTM3U" marker
deriving DecidableEq, Repr

/-- Outcomes of the external collaborators used by
`fetch_and_filter_manifest`, one field per fallible call site. -/
structure FetchEnv where
  /-- yt-dlp `-j` invocation: `none` = spawn error, otherwise
  (status.success(), stdout bytes). -/
  spawn : Option (Bool × Str)
  /-- whether stdout parses as JSON -/
  json_ok : Bool
  /-- `metadata["formats"].as_array()`: each entry's `manifest_url`
  field when it is a string -/
  formats : Option (List (Option Str))
  /-- HTTP GET of the manifest url: `none` = request or body read failure -/
  http : Str → Option Str
  /-- whether `ManifestCache::save` succeeds (its failure is only logged) -/
  cache_save_ok : Bool

/-- The first listed format exposing a `manifest_url` string. -/
def firstManifestUrl (formats : Option (List (Option Str))) : Option Str :=
  formats.bind fun fs => (fs.find? fun f => f.isSome).bind id

/-- `fetch_and_filter_manifest`: `none` models a panic inside the filter;
`some (.error e)` an `Err` return; `some (.ok m)` the filtered manifest.
A cache-save failure is logged and does not affect the returned value. -/
def fetch_and_filter_manifest (env : FetchEnv) : Option (Except FetchErr Str) :=
  match env.spawn with
  | none => some (.error .execFailed)
  | some (ok, stdout) =>
    if !ok then some (.error .exitNonzero)
    else if stdout.isEmpty then some (.error .emptyOutput)
    else if !env.json_ok then some (.error .jsonParse)
    else match firstManifestUrl env.formats with
      | none => some (.error .noManifestUrl)
      | some url =>
        match env.http url with
        | none => some (.error .httpFailed)
        | some content =>
          if !containsSub (str "#EXTM3U") content then
            some (.error .missingSignature)
          else
            (filter_and_modify_manifest content).map fun m =>
              .ok (ensureTrailingNewline m)

inductive RespBody
  | text (s : Str)        -- a manifest body
  | byteStream (id : Str) -- relayed yt-dlp stdout for this video id
  | empty
deriving DecidableEq

/-- An HTTP response as far as the claims are concerned. -/
structure Response where
  status : Nat
  body : RespBody
deriving DecidableEq

/-- `direct_mp4_streaming`: spawn yt-dlp and relay its stdout; a spawn
failure yields a 500 with an empty body — still a response, not an error. -/
def direct_mp4_streaming (spawnOk : Bool) (video_id : Str) : Response :=
  if spawnOk then { status := 200, body := .byteStream video_id }
  else { status := 500, body := .empty }

/-- The non-cached branch of `stream_youtube`. -/
def stream_fetch_path (env : FetchEnv) (fallbackSpawnOk : Bool) (video_id : Str) :
    Option Response :=
  match fetch_and_filter_manifest env with
  | none => none
  | some (.ok manifest) => some { status := 200, body := .text manifest }
  | some (.error _) => some (direct_mp4_streaming fallbackSpawnOk video_id)

/-- `stream_youtube`: serve a valid cache entry, otherwise fetch+filter,
falling back to direct MP4 streaming on any `Err`. `cache` is the result
of `ManifestCache::load` (`none` = read failure). -/
def stream_youtube (cache : Option ManifestCache) (now : Nat) (env : FetchEnv)
    (fallbackSpawnOk : Bool) (video_id : Str) : Option Response :=
  match cache with
  | some c =>
    if c.is_valid now then some { status := 200, body := .text c.content }
    else stream_fetch_path env fallbackSpawnOk video_id
  | none => stream_fetch_path env fallbackSpawnOk video_id

/-! ## Sync engine (`src/config.rs`) -/

/-- `Source`: channel (with optional constraints) or playlist. -/
inductive Source
  | Channel (handle : Str) (name : Str) (max_videos : Option Nat) (max_age_days : Option Nat)
  | Playlist (id : Str) (name : Str)
deriving DecidableEq, Repr

/-- A tracked source; `last_checked` is the watermark, as epoch seconds. -/
structure Channel where
  id : Str
  source : Source
  last_checked : Nat
  media_dir : Str
deriving DecidableEq, Repr

/-- The persistent configuration (registry of tracked sources + settings). -/
structure Config where
  channels : List Channel
  check_interval : Nat
  jellyfin_media_path : Str
  server_address : Str
  background_tasks_paused : Bool
  maintain_manifest_cache : Bool
deriving DecidableEq, Repr

/-- One per-video metadata record from a listing (ephemeral). -/
structure VideoInfo where
  id : Str
  title : Str
  description : Str
  upload_date : Str
  thumbnail_url : Str
deriving DecidableEq, Repr

/-- Byte-lexicographic `≤` on strings (Rust `str::cmp`; UTF-8 byte order
agrees with code-point order). -/
def lexLe : Str → Str → Bool
  | [], _ => true
  | _ :: _, [] => false
  | a :: as, b :: bs => if a < b then true else if b < a then false else lexLe as bs

/-- `PathBuf::join` with a relative component. -/
def pathJoin (a b : Str) : Str := a ++ ['/'] ++ b

/-- `create_safe_filename`: any character outside ASCII alphanumerics,
`'-'` and `' '` becomes `'_'`. -/
def create_safe_filename (base : Str) : Str :=
  base.map fun c =>
    if (('0' ≤ c && c ≤ '9') || ('a' ≤ c && c ≤ 'z') || ('A' ≤ c && c ≤ 'Z'))
        || c = '-' || c = ' ' then c else '_'

/-- `get_season_from_date`: the year `upload_date[0..4]` parsed as `u32`. -/
def get_season_from_date (upload_date : Str) : Option Nat :=
  if upload_date.length ≥ 4 then parseU32 (upload_date.take 4) else none

/-- Worker for `decimalStr`; fuel-structural so the kernel can evaluate
it (for `n < 10`, including every value reached at fuel 0, the fallback
is already the correct answer). -/
def decimalStrGo : Nat → Nat → Str
  | 0, n => [Nat.digitChar n]
  | fuel + 1, n =>
    if n < 10 then [Nat.digitChar n]
    else decimalStrGo fuel (n / 10) ++ [Nat.digitChar (n % 10)]

/-- Decimal rendering of a `Nat` (Rust `format!("{}")` on an integer). -/
def decimalStr (n : Nat) : Str := decimalStrGo n n

/-- `scan_videos`, from the point where the collaborator's records are in
hand: stable-sort by `upload_date` descending, truncate to `max_videos`
for channels, and fail when nothing is left.  `listing` is the parsed
record list (`none` = yt-dlp spawn failure); the date bound and
`--playlist-end` arguments are part of the collaborator invocation and are
reflected in `listing` itself. -/
inductive SyncErr
  | structureFailed  -- create_channel_structure failed
  | listingFailed    -- failed to execute yt-dlp
  | noItems          -- "No videos found for channel"
  | saveFailed       -- config.save() failed after the watermark update
deriving DecidableEq, Repr

def scan_videos (listing : Option (List VideoInfo)) (source : Source) :
    Except SyncErr (List VideoInfo) :=
  match listing with
  | none => .error .listingFailed
  | some records =>
    let sorted := records.mergeSort fun a b => lexLe b.upload_date a.upload_date
    let limited := match source with
      | .Channel _ _ (some max_videos) _ => sorted.take max_videos
      | _ => sorted
    if limited.isEmpty then .error .noItems else .ok limited

/-! ## Artifact materializer (`src/config.rs`, `process_video`) -/

/-- Side effects of one `process_video` run (file contents are not
tracked; the filesystem is a set of existing paths). -/
inductive Eff
  | mkdir (path : Str)
  | net_fetch (url : Str)
  | file_write (path : Str)
deriving DecidableEq, Repr

/-- Error exits of `process_video`. -/
inductive ProcErr
  | invalidDate | dirCreate | imageDownload | thumbWrite | nfoWrite | strmWrite
  | prewarmFailed
deriving DecidableEq, Repr

/-- Outcome of the pre-warm `fetch_and_filter_manifest(id, dir, true)`
call at the end of `process_video`.  `okSaveFailed`: the manifest was
fetched and filtered, only `ManifestCache::save` failed — that failure is
logged inside `fetch_and_filter_manifest` and the call still returns `Ok`. -/
inductive PrewarmResult
  | fetchFailed
  | okSaveFailed
  | okSaved
deriving DecidableEq, Repr

/-- Outcomes of the fallible operations inside one `process_video` call. -/
structure VideoEnv where
  dir_create_ok : Bool
  download_ok : Bool
  thumb_write_ok : Bool
  nfo_write_ok : Bool
  strm_write_ok : Bool
  prewarm : PrewarmResult
deriving DecidableEq, Repr

/-- The environment in which every collaborator call succeeds. -/
def allOkVideoEnv : VideoEnv := ⟨true, true, true, true, true, .okSaved⟩

instance {ε α : Type _} [DecidableEq ε] [DecidableEq α] : DecidableEq (Except ε α)
  | .error e, .error f =>
    if h : e = f then .isTrue (by rw [h]) else .isFalse (by simp [h])
  | .error _, .ok _ => .isFalse (by simp)
  | .ok _, .error _ => .isFalse (by simp)
  | .ok a, .ok b =>
    if h : a = b then .isTrue (by rw [h]) else .isFalse (by simp [h])

/-- Result, filesystem after the call, and effect trace. -/
structure PvOut where
  result : Except ProcErr Bool
  fs : List Str
  effs : List Eff
deriving DecidableEq, Repr

def season_dir_of (ch : Channel) (season : Nat) : Str :=
  pathJoin ch.media_dir (str "Season " ++ decimalStr season)

def safe_filename_of (v : VideoInfo) : Str :=
  create_safe_filename (v.upload_date ++ str " - " ++ v.title)

def strm_path (ch : Channel) (v : VideoInfo) (season : Nat) : Str :=
  pathJoin (season_dir_of ch season) (safe_filename_of v ++ str ".strm")

def thumb_path (ch : Channel) (v : VideoInfo) (season : Nat) : Str :=
  pathJoin (season_dir_of ch season) (safe_filename_of v ++ str "-thumb.jpg")

def nfo_path (ch : Channel) (v : VideoInfo) (season : Nat) : Str :=
  pathJoin (season_dir_of ch season) (safe_filename_of v ++ str ".nfo")

def manifest_cache_path (jellyfin_media_path : Str) (video_id : Str) : Str :=
  pathJoin (pathJoin jellyfin_media_path (str "manifests")) (video_id ++ str ".m3u8")

/-- `process_video`: derive the season from the upload date, return
`Ok(false)` untouched if the stub `.strm` file already exists, otherwise
create the season directory, download the thumbnail, write the thumbnail /
NFO / `.strm` files in that order, then pre-warm the manifest cache
(`fetch_and_filter_manifest(&video.id, manifests_dir, true).await?` — note
the `?`: a pre-warm fetch failure propagates as `Err`). -/
def process_video (env : VideoEnv) (ch : Channel) (video : VideoInfo)
    (jellyfin_media_path : Str) (fs : List Str) : PvOut :=
  match get_season_from_date video.upload_date with
  | none => ⟨.error .invalidDate, fs, []⟩
  | some season =>
    let sdir := season_dir_of ch season
    if strm_path ch video season ∈ fs then ⟨.ok false, fs, []⟩
    else
      let e1 := [Eff.mkdir sdir]
      if !env.dir_create_ok then ⟨.error .dirCreate, fs, e1⟩ else
      let fs1 := sdir :: fs
      let e2 := e1 ++ [Eff.net_fetch video.thumbnail_url]
      if !env.download_ok then ⟨.error .imageDownload, fs1, e2⟩ else
      let e3 := e2 ++ [Eff.file_write (thumb_path ch video season)]
      if !env.thumb_write_ok then ⟨.error .thumbWrite, fs1, e3⟩ else
      let fs2 := thumb_path ch video season :: fs1
      let e4 := e3 ++ [Eff.file_write (nfo_path ch video season)]
      if !env.nfo_write_ok then ⟨.error .nfoWrite, fs2, e4⟩ else
      let fs3 := nfo_path ch video season :: fs2
      let e5 := e4 ++ [Eff.file_write (strm_path ch video season)]
      if !env.strm_write_ok then ⟨.error .strmWrite, fs3, e5⟩ else
      let fs4 := strm_path ch video season :: fs3
      let cpath := manifest_cache_path jellyfin_media_path video.id
      match env.prewarm with
      | .fetchFailed => ⟨.error .prewarmFailed, fs4, e5 ++ [Eff.net_fetch video.id]⟩
      | .okSaveFailed => ⟨.ok true, fs4, e5 ++ [Eff.net_fetch video.id]⟩
      | .okSaved => ⟨.ok true, cpath :: fs4, e5 ++ [Eff.net_fetch video.id, Eff.file_write cpath]⟩

/-! ## Sync cycle (`src/config.rs`, `process_new_videos`) -/

/-- Outcomes of the collaborator calls during one `process_new_videos`
pass over one source. -/
structure SyncEnv where
  /-- `create_channel_structure` result (image failures inside it are
  already non-fatal; this is the `?`-propagated directory/NFO outcome) -/
  channel_structure_ok : Bool
  /-- parsed listing records (`none` = failed to execute yt-dlp) -/
  listing : Option (List VideoInfo)
  /-- per-video collaborator outcomes -/
  video_env : VideoInfo → VideoEnv
  /-- `config.save()` outcome for the watermark persist -/
  save_ok : Bool

/-- The `for video in &videos` loop: count `Ok(true)` results; `Ok(false)`
(already exists) and `Err` (logged, skipped) both continue with the next
candidate. -/
def process_loop (env : SyncEnv) (ch : Channel) (jellyfin_media_path : Str) :
    List VideoInfo → List Str → Nat → Nat × List Str
  | [], fs, n => (n, fs)
  | v :: rest, fs, n =>
    let out := process_video (env.video_env v) ch v jellyfin_media_path fs
    match out.result with
    | .ok true => process_loop env ch jellyfin_media_path rest out.fs (n + 1)
    | .ok false => process_loop env ch jellyfin_media_path rest out.fs n
    | .error _ => process_loop env ch jellyfin_media_path rest out.fs n

/-- `config.channels.iter_mut().find(|c| c.id == self.id)` followed by
`channel.last_checked = now`: stamp the first channel with a matching id;
the `Bool` reports whether one was found. -/
def set_first_watermark : List Channel → Str → Nat → List Channel × Bool
  | [], _, _ => ([], false)
  | c :: rest, id, now =>
    if c.id = id then ({ c with last_checked := now } :: rest, true)
    else
      let (rest2, found) := set_first_watermark rest id now
      (c :: rest2, found)

/-- Result of one `process_new_videos` pass: returned value, the shared
config afterwards (the in-memory registry), and the filesystem. -/
structure SyncOut where
  result : Except SyncErr Nat
  config : Config
  fs : List Str
deriving Repr

/-- `process_new_videos`: ensure the channel structure, list and filter
candidates, materialize each (failures logged and skipped), then always
stamp the watermark of this source (when it still exists in the registry)
to `now` and persist the config.  A failed `config.save()` still leaves
the in-memory watermark advanced. -/
def process_new_videos (env : SyncEnv) (ch : Channel) (jellyfin_media_path : Str)
    (cfg : Config) (now : Nat) (fs : List Str) : SyncOut :=
  if !env.channel_structure_ok then ⟨.error .structureFailed, cfg, fs⟩
  else
    match scan_videos env.listing ch.source with
    | .error e => ⟨.error e, cfg, fs⟩
    | .ok videos =>
      let (new_videos, fs2) := process_loop env ch jellyfin_media_path videos fs 0
      let (chans, found) := set_first_watermark cfg.channels ch.id now
      if found then
        if env.save_ok then ⟨.ok new_videos, { cfg with channels := chans }, fs2⟩
        else ⟨.error .saveFailed, { cfg with channels := chans }, fs2⟩
      else ⟨.ok new_videos, cfg, fs2⟩


/-- Concrete example values used by witnesses and counterexamples. -/
def exChannel : Channel := ⟨str "c1", .Playlist (str "p") (str "P"), 0, str "/media/youtube/chan"⟩

def exVideo : VideoInfo := ⟨str "vid1", str "T", str "D", str "20240101", str "http://t"⟩

/-- A sync environment where everything succeeds except that the
pre-warm `fetch_and_filter_manifest` call fails. -/
def exPrewarmFailEnv : SyncEnv :=
  ⟨true, some [exVideo], fun _ => ⟨true, true, true, true, true, .fetchFailed⟩, true⟩

def exConfig : Config := ⟨[exChannel], 240, str "/media/youtube", str "localhost:8080", false, false⟩

def exChannel2 : Channel :=
  ⟨str "c2", .Channel (str "h") (str "H") (some 2) none, 0, str "/media/youtube/c2"⟩

def exFive : List VideoInfo :=
  [⟨str "v1", str "T", str "D", str "20240103", str "u1"⟩,
   ⟨str "v2", str "T", str "D", str "20240105", str "u2"⟩,
   ⟨str "v3", str "T", str "D", str "20240101", str "u3"⟩,
   ⟨str "v4", str "T", str "D", str "20240104", str "u4"⟩,
   ⟨str "v5", str "T", str "D", str "20240102", str "u5"⟩]

/-- Sync env with a five-record listing where everything succeeds. -/
def exFiveEnv : SyncEnv := ⟨true, some exFive, fun _ => allOkVideoEnv, true⟩

/-- A line that enters the `#EXT-X-MEDIA` branch of the scan. -/
def mediaLineOK (a : Str) : Prop :=
  (str "#EXT-X-MEDIA:").isPrefixOf a = true ∧ containsSub (str "URI") a = true

/-- What the scan guarantees about every line it has stored: variant
declarations carry their parsed bandwidth, audio slots hold lines of the
matching class, and everything came from the scanned line list. -/
structure ScanInv (pool : List Str) (st : ScanState) : Prop where
  streams : ∀ t ∈ st.video_streams,
      (str "#EXT-X-STREAM-INF:").isPrefixOf t.2.1 = true
    ∧ parseBandwidth t.2.1 = some t.1 ∧ t.2.1 ∈ pool ∧ t.2.2 ∈ pool
  hd : ∀ a, st.high_audio_default = some a → mediaLineOK a
    ∧ containsSub (str "234") a = true ∧ containsSub (str "DEFAULT=YES") a = true ∧ a ∈ pool
  hb : ∀ a, st.high_audio_backup = some a → mediaLineOK a
    ∧ containsSub (str "234") a = true ∧ containsSub (str "DEFAULT=YES") a = false ∧ a ∈ pool
  sd : ∀ a, st.sd_audio_default = some a → mediaLineOK a
    ∧ containsSub (str "234") a = false ∧ containsSub (str "DEFAULT=YES") a = true ∧ a ∈ pool
  sb : ∀ a, st.sd_audio_backup = some a → mediaLineOK a
    ∧ containsSub (str "234") a = false ∧ containsSub (str "DEFAULT=YES") a = false ∧ a ∈ pool

/-! ## Theorems -/

/-- C8: a cache entry is valid iff its expiry exceeds `now + 300`;
`now + 301` is valid, `now + 299` is not. -/
theorem cache_validity_boundary (c : ManifestCache) (now : Nat) (vid content : Str) :
    (c.is_valid now = true ↔ c.expires > now + 300)
  ∧ (ManifestCache.mk vid content (now + 301)).is_valid now = true
  ∧ (ManifestCache.mk vid content (now + 299)).is_valid now = false := by
  refine ⟨by simp [ManifestCache.is_valid], ?_, ?_⟩ <;>
    simp [ManifestCache.is_valid]

/-- C2: whenever the cache lookup does not serve (no entry, or an invalid
one) and manifest resolution fails with any of its error exits
(collaborator spawn/exit/empty-output failure, JSON parse failure, missing
manifest URL, HTTP failure, missing `#EXTM3U` signature), `stream_youtube`
answers with the direct-fallback streaming response — a response is
produced, no error propagates to the caller. -/
theorem playback_falls_back_on_resolution_failure
    (cache : Option ManifestCache) (now : Nat) (env : FetchEnv)
    (spawnOk : Bool) (vid : Str) (e : FetchErr)
    (hmiss : ∀ c, cache = some c → c.is_valid now = false)
    (hfail : fetch_and_filter_manifest env = some (.error e)) :
    stream_youtube cache now env spawnOk vid
      = some (direct_mp4_streaming spawnOk vid) := by
  cases cache with
  | none => simp [stream_youtube, stream_fetch_path, hfail]
  | some c => simp [stream_youtube, hmiss c rfl, stream_fetch_path, hfail]

theorem playback_falls_back_on_resolution_failure_witness :
    stream_youtube none 0 ⟨none, true, none, fun _ => none, true⟩ true (str "v")
      = some (direct_mp4_streaming true (str "v")) :=
  playback_falls_back_on_resolution_failure none 0 _ true (str "v") .execFailed
    (fun c h => by cases h) rfl

/-- C10 counterexample: an input whose final line is a variant-stream
declaration makes `filter_and_modify_manifest` read `lines[i + 1]` out of
bounds — the Rust code panics instead of returning a result. -/
theorem filter_panics_on_trailing_variant_line :
    filter_and_modify_manifest (str "#EXT-X-STREAM-INF:BANDWIDTH=1") = none := by
  decide

/-! Unfolding equations for the scan loop. -/

theorem scanLines_nil (st : ScanState) : scanLines [] st = some st := rfl

theorem scanLines_last_streamInf (line : Str) (st : ScanState)
    (hpre : (str "#EXT-X-STREAM-INF:").isPrefixOf line = true) :
    scanLines [line] st = none := by
  rw [scanLines.eq_def]
  simp [hpre]

theorem scanLines_cons_streamInf (line url : Str) (rest2 : List Str) (st : ScanState)
    (hpre : (str "#EXT-X-STREAM-INF:").isPrefixOf line = true) :
    scanLines (line :: url :: rest2) st
      = scanLines rest2
          (match parseBandwidth line with
            | some bw => { st with video_streams := st.video_streams ++ [(bw, line, url)] }
            | none => st) := by
  rw [scanLines.eq_def]
  simp only [hpre, if_pos]

theorem scanLines_cons_media (line : Str) (rest : List Str) (st : ScanState)
    (hpre : (str "#EXT-X-STREAM-INF:").isPrefixOf line = false)
    (hmedia : ((str "#EXT-X-MEDIA:").isPrefixOf line && containsSub (str "URI") line) = true) :
    scanLines (line :: rest) st = scanLines rest (updateAudio st line) := by
  rw [scanLines.eq_def]
  simp [hpre, hmedia]

theorem scanLines_cons_other (line : Str) (rest : List Str) (st : ScanState)
    (hpre : (str "#EXT-X-STREAM-INF:").isPrefixOf line = false)
    (hmedia : ((str "#EXT-X-MEDIA:").isPrefixOf line && containsSub (str "URI") line) = false) :
    scanLines (line :: rest) st = scanLines rest st := by
  rw [scanLines.eq_def]
  simp [hpre, hmedia]

/-- The scan loop terminates normally whenever the final line is not a
variant-stream declaration. -/
theorem scanLines_isSome (ls : List Str) (st : ScanState)
    (h : ∀ l, ls.getLast? = some l → (str "#EXT-X-STREAM-INF:").isPrefixOf l = false) :
    (scanLines ls st).isSome := by
  induction ls, st using scanLines.induct with
  | case1 st => simp [scanLines_nil]
  | case2 line st hpre =>
    exact absurd (h line rfl) (by simp [hpre])
  | case3 line st hpre piece rest st2 ih =>
    rw [scanLines_cons_streamInf line piece rest st hpre]
    apply ih
    intro l hl
    apply h
    cases rest with
    | nil => cases hl
    | cons a as => simpa using hl
  | case4 line rest st hpre hmedia ih =>
    rw [scanLines_cons_media line rest st (eq_false_of_ne_true hpre) hmedia]
    apply ih
    intro l hl
    apply h
    cases rest with
    | nil => cases hl
    | cons a as => simpa using hl
  | case5 line rest st hpre hmedia ih =>
    rw [scanLines_cons_other line rest st (eq_false_of_ne_true hpre) (eq_false_of_ne_true hmedia)]
    apply ih
    intro l hl
    apply h
    cases rest with
    | nil => cases hl
    | cons a as => simpa using hl

/-- C10 (amended): the filter returns a result for every input whose
final line is not a variant-stream declaration; an input whose final line
is one panics (see `filter_panics_on_trailing_variant_line`). -/
theorem filter_total_unless_trailing_variant (content : Str)
    (h : ∀ l, (rustLines content).getLast? = some l →
        (str "#EXT-X-STREAM-INF:").isPrefixOf l = false) :
    (filter_and_modify_manifest content).isSome := by
  have hs := scanLines_isSome (rustLines content) initScan h
  cases hsome : scanLines (rustLines content) initScan with
  | none => rw [hsome] at hs; cases hs
  | some st => simp [filter_and_modify_manifest, hsome]

theorem filter_total_unless_trailing_variant_witness :
    (filter_and_modify_manifest (str "#EXTM3U\nabc\n")).isSome :=
  filter_total_unless_trailing_variant _ (by
    intro l hl
    rw [show (rustLines (str "#EXTM3U\nabc\n")).getLast? = some (str "abc") from rfl] at hl
    cases hl
    decide)

/-- The kept variant list is sorted into non-increasing bandwidth order. -/
theorem sortStreams_pairwise (l : List (Nat × Str × Str)) :
    (sortStreams l).Pairwise (fun a b => b.1 ≤ a.1) := by
  have htr : ∀ x y z : Nat × Str × Str,
      decide (y.1 ≤ x.1) = true → decide (z.1 ≤ y.1) = true →
      decide (z.1 ≤ x.1) = true := by
    intro x y z hxy hyz
    simp only [decide_eq_true_eq] at hxy hyz ⊢
    exact Nat.le_trans hyz hxy
  have hto : ∀ x y : Nat × Str × Str,
      (decide (y.1 ≤ x.1) || decide (x.1 ≤ y.1)) = true := by
    intro x y
    rcases Nat.le_total y.1 x.1 with hyx | hyx <;> simp [hyx]
  refine (@List.sorted_mergeSort (Nat × Str × Str)
    (fun a b => decide (b.1 ≤ a.1)) htr hto l).imp ?_
  intro p q hpq
  simpa using hpq

/-- C3 (amended): with `N` parsed variant declarations the output carries
exactly `min N 3` declaration/url pairs, in non-increasing bandwidth
order — strictly descending whenever the parsed bandwidths are pairwise
distinct (ties are kept, in input order; see
`filter_top3_not_strict_counterexample`). -/
theorem filter_keeps_top3 (content : Str) (st : ScanState)
    (hscan : scanLines (rustLines content) initScan = some st) :
    (keptStreams st).length = min st.video_streams.length 3
  ∧ (keptStreams st).Pairwise (fun a b => b.1 ≤ a.1)
  ∧ (st.video_streams.Pairwise (fun a b => a.1 ≠ b.1) →
      (keptStreams st).Pairwise (fun a b => b.1 < a.1))
  ∧ filter_and_modify_manifest content
      = some (renderStr (render_lines (chooseAudio st) (keptStreams st))) := by
  refine ⟨?_, ?_, ?_, ?_⟩
  · simp [keptStreams, sortStreams, Nat.min_comm]
  · exact (sortStreams_pairwise st.video_streams).sublist (List.take_sublist 3 _)
  · intro hdist
    have hperm : List.Perm (sortStreams st.video_streams) st.video_streams :=
      List.mergeSort_perm st.video_streams _
    have hne : (sortStreams st.video_streams).Pairwise (fun a b => a.1 ≠ b.1) :=
      (hperm.pairwise_iff (fun h => Ne.symm h)).mpr hdist
    have hle := sortStreams_pairwise st.video_streams
    have hcomb := (hle.and hne).sublist (List.take_sublist 3 (sortStreams st.video_streams))
    refine (hcomb.imp ?_)
    rintro a b ⟨h1, h2⟩
    omega
  · unfold filter_and_modify_manifest
    rw [hscan]
    rfl

/-- C3 counterexample: two variants with equal `BANDWIDTH=100` are both
kept, so the output's bandwidth order is not *strictly* descending. -/
theorem filter_top3_not_strict_counterexample :
    (scanLines (rustLines (str "#EXT-X-STREAM-INF:BANDWIDTH=100\nu1\n#EXT-X-STREAM-INF:BANDWIDTH=100\nu2\n")) initScan).map
        keptStreams
      = some [(100, str "#EXT-X-STREAM-INF:BANDWIDTH=100", str "u1"),
              (100, str "#EXT-X-STREAM-INF:BANDWIDTH=100", str "u2")]
  ∧ ¬ ([(100, str "#EXT-X-STREAM-INF:BANDWIDTH=100", str "u1"),
        (100, str "#EXT-X-STREAM-INF:BANDWIDTH=100", str "u2")] : List (Nat × Str × Str)).Pairwise
        (fun a b => b.1 < a.1) := by
  constructor
  · have hscan : scanLines (rustLines (str "#EXT-X-STREAM-INF:BANDWIDTH=100\nu1\n#EXT-X-STREAM-INF:BANDWIDTH=100\nu2\n")) initScan
        = some ⟨[(100, str "#EXT-X-STREAM-INF:BANDWIDTH=100", str "u1"),
                 (100, str "#EXT-X-STREAM-INF:BANDWIDTH=100", str "u2")], none, none, none, none⟩ := by
      decide
    rw [hscan]
    simp only [Option.map_some', keptStreams, sortStreams]
    rw [List.mergeSort_of_sorted (by simp [List.pairwise_cons])]
    simp
  · simp [List.pairwise_cons]

theorem filter_keeps_top3_witness :
    (keptStreams ⟨[(7, str "#EXT-X-STREAM-INF:BANDWIDTH=7", str "u")], none, none, none, none⟩).length
      = min 1 3 :=
  (filter_keeps_top3 (str "#EXT-X-STREAM-INF:BANDWIDTH=7\nu\n")
    ⟨[(7, str "#EXT-X-STREAM-INF:BANDWIDTH=7", str "u")], none, none, none, none⟩ (by decide)).1

/-- C7: the output carries at most one alternate-media line, chosen as the
first present of {high default, standard default, high backup, standard
backup}; in particular a high-tier default always beats a standard-tier
default. -/
theorem audio_priority (content : Str) (st : ScanState)
    (hscan : scanLines (rustLines content) initScan = some st) :
    (chooseAudio st).toList.length ≤ 1
  ∧ (∀ a, st.high_audio_default = some a → chooseAudio st = some a)
  ∧ (st.high_audio_default = none →
      ∀ a, st.sd_audio_default = some a → chooseAudio st = some a)
  ∧ (st.high_audio_default = none → st.sd_audio_default = none →
      ∀ a, st.high_audio_backup = some a → chooseAudio st = some a)
  ∧ (st.high_audio_default = none → st.sd_audio_default = none →
      st.high_audio_backup = none → chooseAudio st = st.sd_audio_backup)
  ∧ filter_and_modify_manifest content
      = some (renderStr (render_lines (chooseAudio st) (keptStreams st))) := by
  refine ⟨?_, ?_, ?_, ?_, ?_, ?_⟩
  · cases h : chooseAudio st <;> simp
  · intro a ha; simp [chooseAudio, ha, Option.or]
  · intro h0 a ha; simp [chooseAudio, h0, ha, Option.or]
  · intro h0 h1 a ha; simp [chooseAudio, h0, h1, ha, Option.or]
  · intro h0 h1 h2; simp [chooseAudio, h0, h1, h2, Option.or]
  · unfold filter_and_modify_manifest
    rw [hscan]
    rfl

theorem audio_priority_witness :
    chooseAudio ⟨[],
        some (str "#EXT-X-MEDIA:TYPE=AUDIO,GROUP-ID=\"234\",DEFAULT=YES,URI=\"a\""),
        none,
        some (str "#EXT-X-MEDIA:TYPE=AUDIO,GROUP-ID=\"96\",DEFAULT=YES,URI=\"b\""),
        none⟩
      = some (str "#EXT-X-MEDIA:TYPE=AUDIO,GROUP-ID=\"234\",DEFAULT=YES,URI=\"a\"") :=
  (audio_priority
    (str "#EXT-X-MEDIA:TYPE=AUDIO,GROUP-ID=\"234\",DEFAULT=YES,URI=\"a\"\n#EXT-X-MEDIA:TYPE=AUDIO,GROUP-ID=\"96\",DEFAULT=YES,URI=\"b\"\n")
    _ (by decide)).2.1 _ rfl

/-! Line-splitting and rendering lemmas (used for C9). -/

theorem splitNl_ne_nil (s : Str) : splitNl s ≠ [] := by
  induction s with
  | nil => simp [splitNl]
  | cons c cs ih =>
    rw [splitNl]
    split
    · simp
    · cases h : splitNl cs with
      | nil => simp
      | cons p r => simp

theorem splitNl_append_newline (l rest : Str) (h : '\n' ∉ l) :
    splitNl (l ++ '\n' :: rest) = l :: splitNl rest := by
  induction l with
  | nil => simp [splitNl]
  | cons c cs ih =>
    have hc : ¬ (c = '\n') := fun hc => h (by simp [hc])
    have ih2 := ih (fun hm => h (List.mem_cons_of_mem _ hm))
    simp only [List.cons_append]
    rw [splitNl, if_neg hc, ih2]

theorem splitNl_no_newline (s : Str) : ∀ p ∈ splitNl s, '\n' ∉ p := by
  induction s with
  | nil =>
    intro p hp
    simp only [splitNl, List.mem_singleton] at hp
    simp [hp]
  | cons c cs ih =>
    intro p hp
    by_cases hc : c = '\n'
    · rw [splitNl, if_pos hc] at hp
      rcases List.mem_cons.mp hp with hp | hp
      · simp [hp]
      · exact ih p hp
    · cases hsp : splitNl cs with
      | nil => exact absurd hsp (splitNl_ne_nil cs)
      | cons q r =>
        simp only [splitNl, if_neg hc, hsp] at hp
        rcases List.mem_cons.mp hp with hp | hp
        · subst hp
          intro hmem
          rcases List.mem_cons.mp hmem with hmem | hmem
          · exact hc hmem.symm
          · exact ih q (by rw [hsp]; exact List.mem_cons_self q r) hmem
        · exact ih p (by rw [hsp]; exact List.mem_cons_of_mem q hp)

theorem renderStr_nil : renderStr [] = [] := rfl

theorem renderStr_cons (l : Str) (ls : List Str) :
    renderStr (l :: ls) = l ++ '\n' :: renderStr ls := by
  simp [renderStr]

theorem splitNl_renderStr (ls : List Str) (h : ∀ l ∈ ls, '\n' ∉ l) :
    splitNl (renderStr ls) = ls ++ [[]] := by
  induction ls with
  | nil => simp [renderStr_nil, splitNl]
  | cons l ls ih =>
    rw [renderStr_cons, splitNl_append_newline l _ (h l (by simp)),
        ih (fun x hx => h x (by simp [hx]))]
    rfl

theorem rustLinesAux_append_empty (ls : List Str) (h : ∀ l ∈ ls, stripCR l = l) :
    rustLinesAux (ls ++ [[]]) = ls := by
  induction ls with
  | nil => rfl
  | cons l ls ih =>
    cases hq : ls ++ [[]] with
    | nil => exact absurd hq (by simp)
    | cons q r =>
      simp only [List.cons_append, hq, rustLinesAux]
      rw [← hq, ih (fun x hx => h x (by simp [hx])), h l (by simp)]

theorem rustLines_renderStr (ls : List Str)
    (h1 : ∀ l ∈ ls, '\n' ∉ l) (h2 : ∀ l ∈ ls, stripCR l = l) :
    rustLines (renderStr ls) = ls := by
  rw [rustLines, splitNl_renderStr ls h1, rustLinesAux_append_empty ls h2]

theorem stripCR_subset (p : Str) : ∀ c ∈ stripCR p, c ∈ p := by
  intro c hc
  rw [stripCR] at hc
  split at hc
  · exact List.dropLast_subset p hc
  · exact hc

theorem rustLinesAux_mem (ps : List Str) :
    ∀ l ∈ rustLinesAux ps, ∃ p ∈ ps, l = stripCR p ∨ l = p := by
  induction ps with
  | nil => intro l hl; cases hl
  | cons p ps ih =>
    intro l hl
    cases ps with
    | nil =>
      rw [rustLinesAux] at hl
      split at hl
      · cases hl
      · rcases List.mem_cons.mp hl with hl | hl
        · exact ⟨p, by simp, Or.inr hl⟩
        · cases hl
    | cons q r =>
      simp only [rustLinesAux] at hl
      rcases List.mem_cons.mp hl with hl | hl
      · exact ⟨p, by simp, Or.inl hl⟩
      · obtain ⟨x, hx, hor⟩ := ih l hl
        exact ⟨x, by simp [hx], hor⟩

theorem rustLines_no_newline (s : Str) : ∀ l ∈ rustLines s, '\n' ∉ l := by
  intro l hl hmem
  obtain ⟨p, hp, hor⟩ := rustLinesAux_mem (splitNl s) l hl
  rcases hor with h | h
  · exact splitNl_no_newline s p hp (stripCR_subset p _ (h ▸ hmem))
  · exact splitNl_no_newline s p hp (h ▸ hmem)

theorem renderStr_getLast (l : Str) (ls : List Str) :
    (renderStr (l :: ls)).getLast? = some '\n' := by
  induction ls generalizing l with
  | nil => simp [renderStr_cons, renderStr_nil]
  | cons m ls ih =>
    rw [renderStr_cons]
    rw [show l ++ '\n' :: renderStr (m :: ls) = (l ++ ['\n']) ++ renderStr (m :: ls) by simp]
    rw [List.getLast?_append, ih m]
    rfl

theorem ensureTrailingNewline_renderStr (l : Str) (ls : List Str) :
    ensureTrailingNewline (renderStr (l :: ls)) = renderStr (l :: ls) := by
  rw [ensureTrailingNewline, if_pos (renderStr_getLast l ls)]

/-! Scan-state invariants (used for C9). -/

theorem scanInv_init (pool : List Str) : ScanInv pool initScan := by
  constructor <;> simp [initScan]

theorem scanInv_updateAudio (pool : List Str) (st : ScanState) (line : Str)
    (hinv : ScanInv pool st) (hm : mediaLineOK line) (hpool : line ∈ pool) :
    ScanInv pool (updateAudio st line) := by
  rw [updateAudio]
  by_cases h234 : containsSub (str "234") line = true
  · by_cases hdef : containsSub (str "DEFAULT=YES") line = true
    · simp only [h234, hdef, if_pos]
      refine ⟨hinv.streams, ?_, hinv.hb, hinv.sd, hinv.sb⟩
      intro a ha
      cases ha
      exact ⟨hm, h234, hdef, hpool⟩
    · simp only [h234, if_pos, eq_false_of_ne_true hdef, Bool.false_eq_true, if_false]
      by_cases hnone : st.high_audio_default = none
      · simp only [hnone, if_pos]
        refine ⟨hinv.streams, ?_, ?_, hinv.sd, hinv.sb⟩
        · intro a ha
          exact absurd ha (by simp)
        · intro a ha
          cases ha
          exact ⟨hm, h234, eq_false_of_ne_true hdef, hpool⟩
      · simp only [hnone, if_false]
        exact hinv
  · simp only [eq_false_of_ne_true h234, Bool.false_eq_true, if_false]
    by_cases hdef : containsSub (str "DEFAULT=YES") line = true
    · simp only [hdef, if_pos]
      refine ⟨hinv.streams, hinv.hd, hinv.hb, ?_, hinv.sb⟩
      intro a ha
      cases ha
      exact ⟨hm, eq_false_of_ne_true h234, hdef, hpool⟩
    · simp only [eq_false_of_ne_true hdef, Bool.false_eq_true, if_false]
      by_cases hnone : st.sd_audio_default = none
      · simp only [hnone, if_pos]
        refine ⟨hinv.streams, hinv.hd, hinv.hb, ?_, ?_⟩
        · intro a ha
          exact absurd ha (by simp)
        · intro a ha
          cases ha
          exact ⟨hm, eq_false_of_ne_true h234, eq_false_of_ne_true hdef, hpool⟩
      · simp only [hnone, if_false]
        exact hinv


theorem scanLines_inv (pool : List Str) (ls : List Str) (stx : ScanState) :
    ∀ st', (∀ l ∈ ls, l ∈ pool) → scanLines ls stx = some st' →
      ScanInv pool stx → ScanInv pool st' := by
  induction ls, stx using scanLines.induct with
  | case1 st =>
    intro st' _ hscan hinv
    rw [scanLines_nil] at hscan
    cases hscan
    exact hinv
  | case2 line st hpre =>
    intro st' _ hscan _
    rw [scanLines_last_streamInf line st hpre] at hscan
    cases hscan
  | case3 line st hpre piece rest st2 ih =>
    intro st' hsub hscan hinv
    rw [scanLines_cons_streamInf line piece rest st hpre] at hscan
    refine ih st' (fun l hl => hsub l (by simp [hl])) hscan ?_
    have hst2 : st2 = match parseBandwidth line with
        | some bw => { st with video_streams := st.video_streams ++ [(bw, line, piece)] }
        | none => st := rfl
    rw [hst2]
    cases hbw : parseBandwidth line with
    | none => simpa [hbw] using hinv
    | some bw =>
      simp only [hbw]
      refine ⟨?_, hinv.hd, hinv.hb, hinv.sd, hinv.sb⟩
      intro t ht
      rcases List.mem_append.mp ht with ht | ht
      · exact hinv.streams t ht
      · rcases List.mem_singleton.mp ht with rfl
        exact ⟨hpre, hbw, hsub line (by simp), hsub piece (by simp)⟩
  | case4 line rest st hpre hmedia ih =>
    intro st' hsub hscan hinv
    rw [scanLines_cons_media line rest st (eq_false_of_ne_true hpre) hmedia] at hscan
    refine ih st' (fun l hl => hsub l (by simp [hl])) hscan ?_
    rcases Bool.and_eq_true_iff.mp hmedia with ⟨hm1, hm2⟩
    exact scanInv_updateAudio pool st line hinv ⟨hm1, hm2⟩ (hsub line (by simp))
  | case5 line rest st hpre hmedia ih =>
    intro st' hsub hscan hinv
    rw [scanLines_cons_other line rest st (eq_false_of_ne_true hpre)
      (eq_false_of_ne_true hmedia)] at hscan
    exact ih st' (fun l hl => hsub l (by simp [hl])) hscan hinv

/-! Rescan lemmas (used for C9). -/

theorem media_not_streamInf (l : Str)
    (h : (str "#EXT-X-MEDIA:").isPrefixOf l = true) :
    (str "#EXT-X-STREAM-INF:").isPrefixOf l = false := by
  by_contra h2
  rw [Bool.not_eq_false, List.isPrefixOf_iff_prefix] at h2
  rw [List.isPrefixOf_iff_prefix] at h
  have hle : (str "#EXT-X-MEDIA:").length ≤ (str "#EXT-X-STREAM-INF:").length := by decide
  have hpp := List.prefix_of_prefix_length_le h h2 hle
  exact absurd hpp (by decide)

theorem scanLines_pairs (ks : List (Nat × Str × Str)) (st : ScanState)
    (h : ∀ t ∈ ks, (str "#EXT-X-STREAM-INF:").isPrefixOf t.2.1 = true
      ∧ parseBandwidth t.2.1 = some t.1) :
    scanLines (ks.flatMap fun t => [t.2.1, t.2.2]) st
      = some { st with video_streams := st.video_streams ++ ks } := by
  induction ks generalizing st with
  | nil => simp [scanLines_nil]
  | cons t ks ih =>
    have ht := h t (by simp)
    rw [List.flatMap_cons, List.cons_append, List.singleton_append,
      scanLines_cons_streamInf _ _ _ _ ht.1, ht.2,
      ih _ (fun x hx => h x (by simp [hx]))]
    simp

theorem scanLines_header (rest : List Str) (st : ScanState) :
    scanLines (str "#EXTM3U" :: str "#EXT-X-INDEPENDENT-SEGMENTS" :: rest) st
      = scanLines rest st := by
  rw [scanLines_cons_other _ _ _ (by decide) (by decide),
      scanLines_cons_other _ _ _ (by decide) (by decide)]

theorem updateAudio_init_hd (a : Str)
    (h234 : containsSub (str "234") a = true)
    (hdef : containsSub (str "DEFAULT=YES") a = true) :
    updateAudio initScan a = ⟨[], some a, none, none, none⟩ := by
  simp [updateAudio, h234, hdef, initScan]

theorem updateAudio_init_hb (a : Str)
    (h234 : containsSub (str "234") a = true)
    (hdef : containsSub (str "DEFAULT=YES") a = false) :
    updateAudio initScan a = ⟨[], none, some a, none, none⟩ := by
  simp [updateAudio, h234, hdef, initScan]

theorem updateAudio_init_sd (a : Str)
    (h234 : containsSub (str "234") a = false)
    (hdef : containsSub (str "DEFAULT=YES") a = true) :
    updateAudio initScan a = ⟨[], none, none, some a, none⟩ := by
  simp [updateAudio, h234, hdef, initScan]

theorem updateAudio_init_sb (a : Str)
    (h234 : containsSub (str "234") a = false)
    (hdef : containsSub (str "DEFAULT=YES") a = false) :
    updateAudio initScan a = ⟨[], none, none, none, some a⟩ := by
  simp [updateAudio, h234, hdef, initScan]

theorem sortStreams_of_sorted (l : List (Nat × Str × Str))
    (h : l.Pairwise (fun a b => b.1 ≤ a.1)) : sortStreams l = l :=
  List.mergeSort_of_sorted (h.imp (by intro a b hab; simpa using hab))

theorem keptStreams_mem (st : ScanState) :
    ∀ t ∈ keptStreams st, t ∈ st.video_streams := by
  intro t ht
  have h1 : t ∈ sortStreams st.video_streams := List.take_subset 3 _ ht
  rw [sortStreams] at h1
  exact List.mem_mergeSort.mp h1

theorem keptStreams_fixpoint (st : ScanState) :
    (sortStreams (keptStreams st)).take 3 = keptStreams st := by
  have hsorted : (keptStreams st).Pairwise (fun a b => b.1 ≤ a.1) :=
    (sortStreams_pairwise st.video_streams).sublist (List.take_sublist 3 _)
  rw [sortStreams_of_sorted _ hsorted]
  exact List.take_of_length_le (by simp [keptStreams])


theorem chooseAudio_cases (st : ScanState) (a : Str) (h : chooseAudio st = some a) :
    st.high_audio_default = some a ∨ st.sd_audio_default = some a
  ∨ st.high_audio_backup = some a ∨ st.sd_audio_backup = some a := by
  rw [chooseAudio] at h
  cases h1 : st.high_audio_default with
  | some x => simp [h1, Option.or] at h; exact Or.inl (by rw [h])
  | none =>
  cases h2 : st.sd_audio_default with
  | some x => simp [h1, h2, Option.or] at h; exact Or.inr (Or.inl (by rw [h]))
  | none =>
  cases h3 : st.high_audio_backup with
  | some x => simp [h1, h2, h3, Option.or] at h; exact Or.inr (Or.inr (Or.inl (by rw [h])))
  | none =>
    simp [h1, h2, h3, Option.or] at h
    exact Or.inr (Or.inr (Or.inr (by rw [h])))

theorem chooseAudio_class (pool : List Str) (st : ScanState) (a : Str)
    (hinv : ScanInv pool st) (h : chooseAudio st = some a) :
    mediaLineOK a ∧ a ∈ pool := by
  rcases chooseAudio_cases st a h with hc | hc | hc | hc
  · exact ⟨(hinv.hd a hc).1, (hinv.hd a hc).2.2.2⟩
  · exact ⟨(hinv.sd a hc).1, (hinv.sd a hc).2.2.2⟩
  · exact ⟨(hinv.hb a hc).1, (hinv.hb a hc).2.2.2⟩
  · exact ⟨(hinv.sb a hc).1, (hinv.sb a hc).2.2.2⟩

theorem chooseAudio_set_streams (st : ScanState) (v : List (Nat × Str × Str)) :
    chooseAudio { st with video_streams := v } = chooseAudio st := rfl

theorem updateAudio_init_choose (a : Str) :
    chooseAudio (updateAudio initScan a) = some a := by
  by_cases h234 : containsSub (str "234") a = true
  · by_cases hdef : containsSub (str "DEFAULT=YES") a = true
    · rw [updateAudio_init_hd a h234 hdef]; rfl
    · rw [updateAudio_init_hb a h234 (eq_false_of_ne_true hdef)]; rfl
  · by_cases hdef : containsSub (str "DEFAULT=YES") a = true
    · rw [updateAudio_init_sd a (eq_false_of_ne_true h234) hdef]; rfl
    · rw [updateAudio_init_sb a (eq_false_of_ne_true h234) (eq_false_of_ne_true hdef)]; rfl

theorem updateAudio_streams (st : ScanState) (a : Str) :
    (updateAudio st a).video_streams = st.video_streams := by
  rw [updateAudio]
  split <;> split <;> first | rfl | (split <;> rfl)


/-- C9 (amended): re-filtering a normalized output reproduces it
byte-for-byte, provided no line of the original input carries a trailing
carriage return (such a CR is part of the kept declaration line, survives
into the output, and is then stripped as part of the `\r\n` terminator on
the second pass — see `pipeline_not_idempotent_counterexample`). -/
theorem pipeline_idempotent (s t : Str)
    (hcr : ∀ l ∈ rustLines s, stripCR l = l)
    (hpipe : filterPipeline s = some t) :
    filterPipeline t = some t := by
  rw [filterPipeline] at hpipe
  cases hscan : scanLines (rustLines s) initScan with
  | none =>
    rw [filter_and_modify_manifest, hscan] at hpipe
    cases hpipe
  | some st =>
  rw [filter_and_modify_manifest, hscan] at hpipe
  simp only [Option.map_some'] at hpipe
  have ht : t = ensureTrailingNewline (renderStr (render_lines (chooseAudio st) (keptStreams st))) :=
    (Option.some.inj hpipe).symm
  have hLcons : render_lines (chooseAudio st) (keptStreams st)
      = str "#EXTM3U" :: str "#EXT-X-INDEPENDENT-SEGMENTS"
        :: ((chooseAudio st).toList ++ (keptStreams st).flatMap fun x => [x.2.1, x.2.2]) := rfl
  have htr : t = renderStr (render_lines (chooseAudio st) (keptStreams st)) := by
    rw [ht, hLcons, ensureTrailingNewline_renderStr]
  have hinv : ScanInv (rustLines s) st :=
    scanLines_inv (rustLines s) (rustLines s) initScan st (fun l hl => hl) hscan
      (scanInv_init _)
  have hpairs : ∀ x ∈ keptStreams st,
      (str "#EXT-X-STREAM-INF:").isPrefixOf x.2.1 = true
    ∧ parseBandwidth x.2.1 = some x.1 ∧ x.2.1 ∈ rustLines s ∧ x.2.2 ∈ rustLines s :=
    fun x hx => hinv.streams x (keptStreams_mem st x hx)
  have hLok : ∀ l ∈ render_lines (chooseAudio st) (keptStreams st), '\n' ∉ l ∧ stripCR l = l := by
    intro l hl
    rw [hLcons] at hl
    rcases List.mem_cons.mp hl with rfl | hl
    · exact ⟨by decide, by decide⟩
    rcases List.mem_cons.mp hl with rfl | hl
    · exact ⟨by decide, by decide⟩
    rcases List.mem_append.mp hl with hl | hl
    · have hca : chooseAudio st = some l := by
        cases hc : chooseAudio st with
        | none => rw [hc] at hl; cases hl
        | some a => rw [hc] at hl; rcases List.mem_singleton.mp hl with rfl; rfl
      have hmem : l ∈ rustLines s := (chooseAudio_class _ st l hinv hca).2
      exact ⟨rustLines_no_newline s l hmem, hcr l hmem⟩
    · obtain ⟨x, hx, hlx⟩ := List.mem_flatMap.mp hl
      have hxf := hpairs x hx
      rcases List.mem_cons.mp hlx with rfl | hlx
      · exact ⟨rustLines_no_newline s _ hxf.2.2.1, hcr _ hxf.2.2.1⟩
      · rcases List.mem_singleton.mp hlx with rfl
        exact ⟨rustLines_no_newline s _ hxf.2.2.2, hcr _ hxf.2.2.2⟩
  have hlines : rustLines t = render_lines (chooseAudio st) (keptStreams st) := by
    rw [htr]
    exact rustLines_renderStr _ (fun l hl => (hLok l hl).1) (fun l hl => (hLok l hl).2)
  have hscan_t : ∃ stW, scanLines (render_lines (chooseAudio st) (keptStreams st)) initScan
      = some stW ∧ stW.video_streams = keptStreams st ∧ chooseAudio stW = chooseAudio st := by
    cases hca : chooseAudio st with
    | none =>
      refine ⟨{ initScan with video_streams := keptStreams st }, ?_, by simp [initScan], by rfl⟩
      show scanLines (_ :: _ :: ([] ++ _)) initScan = _
      rw [List.nil_append, scanLines_header,
        scanLines_pairs _ initScan (fun x hx => ⟨(hpairs x hx).1, (hpairs x hx).2.1⟩)]
      simp [initScan]
    | some a =>
      have hcls := chooseAudio_class _ st a hinv hca
      refine ⟨{ updateAudio initScan a with video_streams := keptStreams st }, ?_, rfl, ?_⟩
      · show scanLines (str "#EXTM3U" :: str "#EXT-X-INDEPENDENT-SEGMENTS"
            :: a :: ((keptStreams st).flatMap fun x => [x.2.1, x.2.2])) initScan = _
        rw [scanLines_header,
          scanLines_cons_media a _ initScan (media_not_streamInf a hcls.1.1)
            (by simp [hcls.1.1, hcls.1.2]),
          scanLines_pairs _ _ (fun x hx => ⟨(hpairs x hx).1, (hpairs x hx).2.1⟩)]
        congr 1
        have hva : (updateAudio initScan a).video_streams = [] := by
          rw [updateAudio_streams]; rfl
        rw [show ({ updateAudio initScan a with video_streams := (updateAudio initScan a).video_streams ++ keptStreams st } : ScanState)
            = { updateAudio initScan a with video_streams := keptStreams st } by rw [hva]; rfl]
      · rw [chooseAudio_set_streams, updateAudio_init_choose]
  obtain ⟨stW, hscanW, hvs, hcaW⟩ := hscan_t
  rw [filterPipeline, filter_and_modify_manifest, hlines, hscanW]
  simp only [Option.map_some']
  have hout : (sortStreams stW.video_streams).take 3 = keptStreams st := by
    rw [hvs]
    exact keptStreams_fixpoint st
  rw [hcaW]
  show some (ensureTrailingNewline (renderStr (render_lines (chooseAudio st) ((sortStreams stW.video_streams).take 3)))) = some t
  rw [hout, ← ht]


/-- C9 counterexample: a normalized output of the pipeline (produced from
an input whose declaration line ends in `\r`) is not a fixed point — the
second pass strips the carriage return, so the bytes differ. -/
theorem pipeline_not_idempotent_counterexample :
    filterPipeline (str "#EXT-X-STREAM-INF:BANDWIDTH=5,\r\r\nurl\n")
      = some (str "#EXTM3U\n#EXT-X-INDEPENDENT-SEGMENTS\n#EXT-X-STREAM-INF:BANDWIDTH=5,\r\nurl\n")
  ∧ filterPipeline (str "#EXTM3U\n#EXT-X-INDEPENDENT-SEGMENTS\n#EXT-X-STREAM-INF:BANDWIDTH=5,\r\nurl\n")
      = some (str "#EXTM3U\n#EXT-X-INDEPENDENT-SEGMENTS\n#EXT-X-STREAM-INF:BANDWIDTH=5,\nurl\n")
  ∧ str "#EXTM3U\n#EXT-X-INDEPENDENT-SEGMENTS\n#EXT-X-STREAM-INF:BANDWIDTH=5,\r\nurl\n"
      ≠ str "#EXTM3U\n#EXT-X-INDEPENDENT-SEGMENTS\n#EXT-X-STREAM-INF:BANDWIDTH=5,\nurl\n" := by
  refine ⟨?_, ?_, by decide⟩
  · have hscan : scanLines (rustLines (str "#EXT-X-STREAM-INF:BANDWIDTH=5,\r\r\nurl\n")) initScan
        = some ⟨[(5, str "#EXT-X-STREAM-INF:BANDWIDTH=5,\r", str "url")], none, none, none, none⟩ := by
      decide
    rw [filterPipeline, filter_and_modify_manifest, hscan]
    simp only [Option.map_some', sortStreams, List.mergeSort_singleton]
    decide
  · have hscan : scanLines (rustLines (str "#EXTM3U\n#EXT-X-INDEPENDENT-SEGMENTS\n#EXT-X-STREAM-INF:BANDWIDTH=5,\r\nurl\n")) initScan
        = some ⟨[(5, str "#EXT-X-STREAM-INF:BANDWIDTH=5,", str "url")], none, none, none, none⟩ := by
      decide
    rw [filterPipeline, filter_and_modify_manifest, hscan]
    simp only [Option.map_some', sortStreams, List.mergeSort_singleton]
    decide

theorem pipeline_idempotent_witness :
    filterPipeline (str "#EXTM3U\n#EXT-X-INDEPENDENT-SEGMENTS\n#EXT-X-STREAM-INF:BANDWIDTH=5\nu\n")
      = some (str "#EXTM3U\n#EXT-X-INDEPENDENT-SEGMENTS\n#EXT-X-STREAM-INF:BANDWIDTH=5\nu\n") := by
  apply pipeline_idempotent (str "#EXT-X-STREAM-INF:BANDWIDTH=5\nu\n")
  · decide
  · have hscan : scanLines (rustLines (str "#EXT-X-STREAM-INF:BANDWIDTH=5\nu\n")) initScan
        = some ⟨[(5, str "#EXT-X-STREAM-INF:BANDWIDTH=5", str "u")], none, none, none, none⟩ := by
      decide
    rw [filterPipeline, filter_and_modify_manifest, hscan]
    simp only [Option.map_some', sortStreams, List.mergeSort_singleton]
    decide

/-! Materializer lemmas. -/

theorem process_video_stub_exists (env : VideoEnv) (ch : Channel) (v : VideoInfo)
    (jmp : Str) (fs : List Str) (season : Nat)
    (hseason : get_season_from_date v.upload_date = some season)
    (hmem : strm_path ch v season ∈ fs) :
    process_video env ch v jmp fs = ⟨.ok false, fs, []⟩ := by
  rw [process_video, hseason]
  simp only [hmem, if_pos]

theorem process_video_ok_true (env : VideoEnv) (ch : Channel) (v : VideoInfo)
    (jmp : Str) (fs : List Str)
    (h : (process_video env ch v jmp fs).result = .ok true) :
    ∃ season, get_season_from_date v.upload_date = some season
      ∧ strm_path ch v season ∈ (process_video env ch v jmp fs).fs := by
  cases hseason : get_season_from_date v.upload_date with
  | none => rw [process_video, hseason] at h; cases h
  | some season =>
    refine ⟨season, rfl, ?_⟩
    simp only [process_video, hseason] at h ⊢
    by_cases hmem : strm_path ch v season ∈ fs
    · rw [if_pos hmem]
      exact hmem
    · rw [if_neg hmem] at h ⊢
      cases h1 : env.dir_create_ok with
      | false => simp [h1] at h
      | true =>
      simp only [h1, Bool.not_true, Bool.false_eq_true, if_false] at h ⊢
      cases h2 : env.download_ok with
      | false => simp [h2] at h
      | true =>
      simp only [h2, Bool.not_true, Bool.false_eq_true, if_false] at h ⊢
      cases h3 : env.thumb_write_ok with
      | false => simp [h3] at h
      | true =>
      simp only [h3, Bool.not_true, Bool.false_eq_true, if_false] at h ⊢
      cases h4 : env.nfo_write_ok with
      | false => simp [h4] at h
      | true =>
      simp only [h4, Bool.not_true, Bool.false_eq_true, if_false] at h ⊢
      cases h5 : env.strm_write_ok with
      | false => simp [h5] at h
      | true =>
      simp only [h5, Bool.not_true, Bool.false_eq_true, if_false] at h ⊢
      cases hp : env.prewarm <;> simp [hp] at h ⊢

/-- C5: materialization is idempotent — when the stub `.strm` file already
exists, `process_video` returns `Ok(false)` with no writes and no network
fetch; hence a second run over the state left by a successful first run is
a no-op. -/
theorem materialize_idempotent (env env2 : VideoEnv) (ch : Channel) (v : VideoInfo)
    (jmp : Str) (fs : List Str) :
    (∀ season, get_season_from_date v.upload_date = some season →
       strm_path ch v season ∈ fs →
       process_video env ch v jmp fs = ⟨.ok false, fs, []⟩)
  ∧ ((process_video env ch v jmp fs).result = .ok true →
       process_video env2 ch v jmp (process_video env ch v jmp fs).fs
         = ⟨.ok false, (process_video env ch v jmp fs).fs, []⟩) := by
  constructor
  · intro season hseason hmem
    exact process_video_stub_exists env ch v jmp fs season hseason hmem
  · intro h
    obtain ⟨season, hseason, hmem⟩ := process_video_ok_true env ch v jmp fs h
    exact process_video_stub_exists env2 ch v jmp _ season hseason hmem

theorem materialize_idempotent_witness :
    process_video allOkVideoEnv ⟨str "c", .Playlist (str "p") (str "n"), 0, str "/m/d"⟩
        ⟨str "vid", str "T", str "D", str "20240102", str "http://th"⟩ (str "/m")
        (process_video allOkVideoEnv ⟨str "c", .Playlist (str "p") (str "n"), 0, str "/m/d"⟩
          ⟨str "vid", str "T", str "D", str "20240102", str "http://th"⟩ (str "/m") []).fs
      = ⟨.ok false,
         (process_video allOkVideoEnv ⟨str "c", .Playlist (str "p") (str "n"), 0, str "/m/d"⟩
           ⟨str "vid", str "T", str "D", str "20240102", str "http://th"⟩ (str "/m") []).fs, []⟩ :=
  (materialize_idempotent allOkVideoEnv allOkVideoEnv _ _ _ _).2 (by decide)

/-! Pre-warm behaviour (C4). -/

theorem process_video_prewarm (venv : VideoEnv) (ch : Channel) (v : VideoInfo)
    (jmp : Str) (fs : List Str) (season : Nat)
    (hseason : get_season_from_date v.upload_date = some season)
    (hmem : strm_path ch v season ∉ fs)
    (h1 : venv.dir_create_ok = true) (h2 : venv.download_ok = true)
    (h3 : venv.thumb_write_ok = true) (h4 : venv.nfo_write_ok = true)
    (h5 : venv.strm_write_ok = true) :
    (process_video venv ch v jmp fs).result
      = (match venv.prewarm with
         | .fetchFailed => .error .prewarmFailed
         | _ => .ok true)
  ∧ strm_path ch v season ∈ (process_video venv ch v jmp fs).fs := by
  simp only [process_video, hseason, hmem, if_false, h1, h2, h3, h4, h5,
    Bool.not_true, Bool.false_eq_true]
  cases hp : venv.prewarm <;> simp [hp]

theorem process_loop_error_continues (env : SyncEnv) (ch : Channel) (jmp : Str)
    (v : VideoInfo) (rest : List VideoInfo) (fs : List Str) (n : Nat) (e : ProcErr)
    (h : (process_video (env.video_env v) ch v jmp fs).result = .error e) :
    process_loop env ch jmp (v :: rest) fs n
      = process_loop env ch jmp rest (process_video (env.video_env v) ch v jmp fs).fs n := by
  rw [process_loop]
  rw [h]

/-- C4 (amended): only a cache-persistence failure inside the pre-warm is
tolerated (`Ok(true)`, the video still counts); a pre-warm fetch failure
propagates out of `process_video` as `Err`, so the video — although its
artifacts were all written — is NOT counted in the newly-materialized
total; the cycle still continues with the remaining candidates. -/
theorem prewarm_failure_tolerance (venv : VideoEnv) (env : SyncEnv) (ch : Channel)
    (v : VideoInfo) (jmp : Str) (fs : List Str) (rest : List VideoInfo) (n : Nat)
    (season : Nat) (e : ProcErr)
    (hseason : get_season_from_date v.upload_date = some season)
    (hmem : strm_path ch v season ∉ fs)
    (h1 : venv.dir_create_ok = true) (h2 : venv.download_ok = true)
    (h3 : venv.thumb_write_ok = true) (h4 : venv.nfo_write_ok = true)
    (h5 : venv.strm_write_ok = true) :
    (venv.prewarm = .okSaveFailed → (process_video venv ch v jmp fs).result = .ok true)
  ∧ (venv.prewarm = .fetchFailed →
      (process_video venv ch v jmp fs).result = .error .prewarmFailed
      ∧ strm_path ch v season ∈ (process_video venv ch v jmp fs).fs)
  ∧ ((process_video (env.video_env v) ch v jmp fs).result = .error e →
      process_loop env ch jmp (v :: rest) fs n
        = process_loop env ch jmp rest (process_video (env.video_env v) ch v jmp fs).fs n) := by
  have hrun := process_video_prewarm venv ch v jmp fs season hseason hmem h1 h2 h3 h4 h5
  refine ⟨?_, ?_, ?_⟩
  · intro hp
    rw [hrun.1, hp]
  · intro hp
    exact ⟨by rw [hrun.1, hp], hrun.2⟩
  · intro h
    exact process_loop_error_continues env ch jmp v rest fs n e h

theorem prewarm_failure_tolerance_witness :
    (process_video ⟨true, true, true, true, true, .okSaveFailed⟩ exChannel exVideo
        (str "/media/youtube") []).result = .ok true :=
  (prewarm_failure_tolerance ⟨true, true, true, true, true, .okSaveFailed⟩
    exPrewarmFailEnv exChannel exVideo (str "/media/youtube") [] [] 0 2024 .prewarmFailed
    (by decide) (by decide) rfl rfl rfl rfl rfl).1 rfl

/-- C4 counterexample: one candidate, everything succeeds except the
pre-warm fetch; the video's artifacts (including the `.strm` stub) are on
disk, yet `process_new_videos` reports 0 new videos, not 1. -/
theorem prewarm_failure_counterexample :
    (process_new_videos exPrewarmFailEnv exChannel (str "/media/youtube") exConfig 1000 []).result
      = .ok 0
  ∧ strm_path exChannel exVideo 2024
      ∈ (process_new_videos exPrewarmFailEnv exChannel (str "/media/youtube") exConfig 1000 []).fs
  ∧ (process_new_videos exPrewarmFailEnv exChannel (str "/media/youtube") exConfig 1000 []).result
      ≠ .ok 1 := by
  have hscan : scan_videos exPrewarmFailEnv.listing exChannel.source = .ok [exVideo] := by
    simp [scan_videos, exPrewarmFailEnv, exChannel, List.mergeSort_singleton]
  have hres : (process_video (exPrewarmFailEnv.video_env exVideo) exChannel exVideo
      (str "/media/youtube") []).result = .error .prewarmFailed := by decide
  have hloop : process_loop exPrewarmFailEnv exChannel (str "/media/youtube") [exVideo] [] 0
      = (0, (process_video (exPrewarmFailEnv.video_env exVideo) exChannel exVideo
          (str "/media/youtube") []).fs) := by
    rw [process_loop, hres]
    rfl
  have hout : process_new_videos exPrewarmFailEnv exChannel (str "/media/youtube") exConfig 1000 []
      = ⟨.ok 0, { exConfig with channels := [{ exChannel with last_checked := 1000 }] },
         (process_video (exPrewarmFailEnv.video_env exVideo) exChannel exVideo
           (str "/media/youtube") []).fs⟩ := by
    rw [process_new_videos]
    simp only [hscan, hloop]
    simp [exPrewarmFailEnv, exConfig, exChannel, set_first_watermark]
  rw [hout]
  refine ⟨rfl, by decide, by decide⟩

/-! Watermark lemmas (C1) and artifact-path lemmas (C6). -/

theorem set_first_watermark_get (cs : List Channel) (id : Str) (now : Nat) :
    ∀ i : Nat, ((set_first_watermark cs id now).1[i]? = cs[i]?)
      ∨ (∃ c, cs[i]? = some c ∧ c.id = id
          ∧ (set_first_watermark cs id now).1[i]? = some { c with last_checked := now }) := by
  induction cs with
  | nil => intro i; left; rfl
  | cons c rest ih =>
    intro i
    rw [set_first_watermark]
    by_cases hc : c.id = id
    · rw [if_pos hc]
      cases i with
      | zero => exact Or.inr ⟨c, by simp, hc, by simp⟩
      | succ j => left; simp
    · rw [if_neg hc]
      cases hsf : set_first_watermark rest id now with
      | mk r2 f =>
        cases i with
        | zero => left; simp
        | succ j =>
          rcases ih j with hj | ⟨c0, hc0, hid0, hj⟩
          · left; rw [hsf] at hj; simpa using hj
          · right
            refine ⟨c0, by simpa using hc0, hid0, ?_⟩
            rw [hsf] at hj
            simpa using hj

theorem set_first_watermark_found (cs : List Channel) (id : Str) (now : Nat)
    (c : Channel) (hc : c ∈ cs) (hid : c.id = id) :
    ∃ c' ∈ (set_first_watermark cs id now).1, c'.id = id ∧ c'.last_checked = now := by
  induction cs with
  | nil => cases hc
  | cons d rest ih =>
    rw [set_first_watermark]
    by_cases hd : d.id = id
    · rw [if_pos hd]
      exact ⟨{ d with last_checked := now }, by simp, hd, rfl⟩
    · rw [if_neg hd]
      rcases List.mem_cons.mp hc with rfl | hc2
      · exact absurd hid hd
      · obtain ⟨c', hmem, hprops⟩ := ih hc2
        cases hsf : set_first_watermark rest id now with
        | mk r2 f =>
          rw [hsf] at hmem
          exact ⟨c', by simp [hmem], hprops⟩

theorem set_first_watermark_flag (cs : List Channel) (id : Str) (now : Nat)
    (c : Channel) (hc : c ∈ cs) (hid : c.id = id) :
    (set_first_watermark cs id now).2 = true := by
  induction cs with
  | nil => cases hc
  | cons d rest ih =>
    rw [set_first_watermark]
    by_cases hd : d.id = id
    · rw [if_pos hd]
    · rw [if_neg hd]
      rcases List.mem_cons.mp hc with rfl | hc2
      · exact absurd hid hd
      · cases hsf : set_first_watermark rest id now with
        | mk r2 f =>
          have := ih hc2
          rw [hsf] at this
          simpa using this


/-- C1: the watermark is advanced to `now` (and the updated registry
persisted) whenever the listing step succeeded — independent of how many
videos were new and of any per-video failures — and is left untouched when
the channel-structure step or the listing fails (including the
empty-listing `NoItemsFailure`); consequently it never regresses when
`now` is not in the past. -/
theorem watermark_advance (env : SyncEnv) (ch : Channel) (jmp : Str) (cfg : Config)
    (now : Nat) (fs : List Str) :
    ((∃ e, scan_videos env.listing ch.source = .error e) →
        (process_new_videos env ch jmp cfg now fs).config = cfg)
  ∧ (env.channel_structure_ok = false →
        (process_new_videos env ch jmp cfg now fs).config = cfg)
  ∧ (∀ videos, scan_videos env.listing ch.source = .ok videos →
      env.channel_structure_ok = true →
      ((∃ c ∈ cfg.channels, c.id = ch.id) →
          ∃ c' ∈ (process_new_videos env ch jmp cfg now fs).config.channels,
            c'.id = ch.id ∧ c'.last_checked = now)
      ∧ (env.save_ok = true →
          ∃ n, (process_new_videos env ch jmp cfg now fs).result = .ok n))
  ∧ (∀ i : Nat, ∀ c c', cfg.channels[i]? = some c →
        (process_new_videos env ch jmp cfg now fs).config.channels[i]? = some c' →
        c.last_checked ≤ now → c.last_checked ≤ c'.last_checked) := by
  by_cases hstruct : env.channel_structure_ok = true
  · cases hscan : scan_videos env.listing ch.source with
    | error e =>
      have hconf : (process_new_videos env ch jmp cfg now fs).config = cfg := by
        rw [process_new_videos, hstruct]
        simp [hscan]
      refine ⟨fun _ => hconf, fun hf => absurd hstruct (by simp [hf]), ?_, ?_⟩
      · intro videos hv
        cases hv
      · intro i c c' h1 h2 hle
        rw [hconf, h1] at h2
        cases h2
        exact Nat.le_refl _
    | ok videos =>
      cases hloop : process_loop env ch jmp videos fs 0 with
      | mk nv fs2 =>
      cases hsf : set_first_watermark cfg.channels ch.id now with
      | mk chans found =>
      have hrun : process_new_videos env ch jmp cfg now fs
          = if found then
              (if env.save_ok then ⟨.ok nv, { cfg with channels := chans }, fs2⟩
               else ⟨.error .saveFailed, { cfg with channels := chans }, fs2⟩)
            else ⟨.ok nv, cfg, fs2⟩ := by
        rw [process_new_videos, hstruct]
        simp [hscan, hloop, hsf]
      refine ⟨?_, fun hf => absurd hstruct (by simp [hf]), ?_, ?_⟩
      · rintro ⟨e, he⟩
        cases he
      · intro vids hv _
        cases hv
        constructor
        · rintro ⟨c, hcmem, hcid⟩
          have hfound : found = true := by
            have := set_first_watermark_flag cfg.channels ch.id now c hcmem hcid
            rw [hsf] at this
            simpa using this
          obtain ⟨c', hmem', hprops⟩ :=
            set_first_watermark_found cfg.channels ch.id now c hcmem hcid
          rw [hsf] at hmem'
          refine ⟨c', ?_, hprops⟩
          rw [hrun, hfound]
          by_cases hsave : env.save_ok = true
          · rw [if_pos rfl, if_pos hsave]
            simpa using hmem'
          · rw [if_pos rfl, if_neg hsave]
            simpa using hmem'
        · intro hsave
          rw [hrun]
          by_cases hfd : found = true
          · rw [if_pos hfd, if_pos hsave]
            exact ⟨nv, rfl⟩
          · rw [if_neg hfd]
            exact ⟨nv, rfl⟩
      · intro i c c' h1 h2 hle
        rw [hrun] at h2
        by_cases hfd : found = true
        · have hchans : ({ cfg with channels := chans } : Config).channels[i]? = some c' → c.last_checked ≤ c'.last_checked := by
            intro hc'
            simp only [] at hc'
            rcases set_first_watermark_get cfg.channels ch.id now i with hg | ⟨c0, hg0, hgid, hg⟩
            · rw [hsf] at hg
              simp only [hg] at hc'
              rw [h1] at hc'
              cases hc'
              exact Nat.le_refl _
            · rw [hsf] at hg
              simp only [hg] at hc'
              rw [h1] at hg0
              cases hg0
              cases hc'
              simpa using hle
          by_cases hsave : env.save_ok = true
          · rw [if_pos hfd, if_pos hsave] at h2
            exact hchans h2
          · rw [if_pos hfd, if_neg hsave] at h2
            exact hchans h2
        · rw [if_neg hfd] at h2
          simp only [] at h2
          rw [h1] at h2
          cases h2
          exact Nat.le_refl _
  · have hconf : (process_new_videos env ch jmp cfg now fs).config = cfg := by
      rw [process_new_videos, eq_false_of_ne_true hstruct]
      rfl
    refine ⟨fun _ => hconf, fun _ => hconf, ?_, ?_⟩
    · intro videos hv hstrue
      exact absurd hstrue hstruct
    · intro i c c' h1 h2 hle
      rw [hconf, h1] at h2
      cases h2
      exact Nat.le_refl _


theorem watermark_advance_witness :
    (process_new_videos ⟨true, none, fun _ => allOkVideoEnv, true⟩ exChannel
        (str "/media/youtube") exConfig 5 []).config = exConfig :=
  (watermark_advance ⟨true, none, fun _ => allOkVideoEnv, true⟩ exChannel
    (str "/media/youtube") exConfig 5 []).1 ⟨.listingFailed, rfl⟩

theorem ne_of_getLast (a b : Str) (x y : Char)
    (hx : a.getLast? = some x) (hy : b.getLast? = some y) (hxy : x ≠ y) : a ≠ b := by
  intro h
  rw [h, hy] at hx
  cases hx
  exact hxy rfl

theorem getLast_append_lit (pre : Str) (lit : Str) (c : Char)
    (hc : lit.getLast? = some c) : (pre ++ lit).getLast? = some c := by
  rw [List.getLast?_append, hc]
  rfl

theorem strm_path_getLast (ch : Channel) (v : VideoInfo) (s : Nat) :
    (strm_path ch v s).getLast? = some 'm' := by
  rw [strm_path, pathJoin, List.append_assoc]
  exact getLast_append_lit _ _ _ (getLast_append_lit ['/'] _ _ (getLast_append_lit _ (str ".strm") 'm' rfl))

theorem thumb_path_getLast (ch : Channel) (v : VideoInfo) (s : Nat) :
    (thumb_path ch v s).getLast? = some 'g' := by
  rw [thumb_path, pathJoin, List.append_assoc]
  exact getLast_append_lit _ _ _ (getLast_append_lit ['/'] _ _ (getLast_append_lit _ (str "-thumb.jpg") 'g' rfl))

theorem nfo_path_getLast (ch : Channel) (v : VideoInfo) (s : Nat) :
    (nfo_path ch v s).getLast? = some 'o' := by
  rw [nfo_path, pathJoin, List.append_assoc]
  exact getLast_append_lit _ _ _ (getLast_append_lit ['/'] _ _ (getLast_append_lit _ (str ".nfo") 'o' rfl))

theorem cache_path_getLast (jmp : Str) (vid : Str) :
    (manifest_cache_path jmp vid).getLast? = some '8' := by
  rw [manifest_cache_path, pathJoin, List.append_assoc]
  exact getLast_append_lit _ _ _ (getLast_append_lit ['/'] _ _ (getLast_append_lit _ (str ".m3u8") '8' rfl))

theorem decimalStrGo_getLast (fuel n : Nat) (h : n ≤ fuel ∨ n < 10) :
    (decimalStrGo fuel n).getLast? = some (Nat.digitChar (n % 10)) := by
  cases fuel with
  | zero =>
    have hn : n < 10 := by omega
    rw [decimalStrGo, Nat.mod_eq_of_lt hn]
    rfl
  | succ f =>
    rw [decimalStrGo]
    by_cases hn : n < 10
    · rw [if_pos hn, Nat.mod_eq_of_lt hn]
      rfl
    · rw [if_neg hn]
      exact getLast_append_lit _ _ _ rfl

theorem season_dir_getLast (ch : Channel) (s : Nat) :
    ∃ d, d < 10 ∧ (season_dir_of ch s).getLast? = some (Nat.digitChar d) := by
  refine ⟨s % 10, Nat.mod_lt _ (by omega), ?_⟩
  rw [season_dir_of, pathJoin, List.append_assoc]
  exact getLast_append_lit _ _ _
    (getLast_append_lit ['/'] _ _
      (getLast_append_lit (str "Season ") _ _
        (by rw [decimalStr] at *; exact decimalStrGo_getLast s s (Or.inl (Nat.le_refl s)))))

theorem digitChar_ne_m (d : Nat) (h : d < 10) : Nat.digitChar d ≠ 'm' := by
  interval_cases d <;> decide

/-! Lexicographic-order lemmas and the maxVideos scenario (C6). -/

theorem lexLe_total (a : Str) : ∀ b : Str, lexLe a b = true ∨ lexLe b a = true := by
  induction a with
  | nil => intro b; left; rfl
  | cons x xs ih =>
    intro b
    cases b with
    | nil => right; rfl
    | cons y ys =>
      rw [lexLe, lexLe]
      by_cases h1 : x < y
      · left; rw [if_pos h1]
      · by_cases h2 : y < x
        · right; rw [if_pos h2]
        · rw [if_neg h1, if_neg h2, if_neg h2, if_neg h1]
          exact ih ys

theorem lexLe_trans (a : Str) : ∀ b c : Str,
    lexLe a b = true → lexLe b c = true → lexLe a c = true := by
  induction a with
  | nil => intro b c _ _; rfl
  | cons x xs ih =>
    intro b c hab hbc
    cases b with
    | nil => rw [lexLe] at hab; cases hab
    | cons y ys =>
      cases c with
      | nil => rw [lexLe] at hbc; cases hbc
      | cons z zs =>
        rw [lexLe] at hab hbc ⊢
        by_cases h1 : x < y
        · by_cases h3 : y < z
          · rw [if_pos (lt_trans h1 h3)]
          · by_cases h4 : z < y
            · rw [if_pos h4, if_neg (by intro h; exact absurd h (not_lt.mpr (le_of_lt h4)))] at hbc
              cases hbc
            · have hyz : y = z := le_antisymm (not_lt.mp h4) (not_lt.mp h3)
              rw [if_pos (hyz ▸ h1)]
        · by_cases h2 : y < x
          · rw [if_neg h1, if_pos h2] at hab
            cases hab
          · have hxy : x = y := le_antisymm (not_lt.mp h2) (not_lt.mp h1)
            rw [if_neg h1, if_neg h2] at hab
            by_cases h3 : y < z
            · rw [if_pos (hxy ▸ h3)]
            · by_cases h4 : z < y
              · rw [if_neg h3, if_pos h4] at hbc
                cases hbc
              · have hyz : y = z := le_antisymm (not_lt.mp h4) (not_lt.mp h3)
                rw [if_neg h3, if_neg h4] at hbc
                have hne1 : ¬ x < z := by rw [← hyz]; exact h1
                have hne2 : ¬ z < x := by rw [← hyz]; exact h2
                rw [if_neg hne1, if_neg hne2]
                exact ih ys zs hab hbc


theorem process_video_all_ok (ch : Channel) (v : VideoInfo) (jmp : Str) (fs : List Str)
    (season : Nat)
    (hseason : get_season_from_date v.upload_date = some season)
    (hmem : strm_path ch v season ∉ fs) :
    process_video allOkVideoEnv ch v jmp fs
      = ⟨.ok true,
         manifest_cache_path jmp v.id :: strm_path ch v season :: nfo_path ch v season
           :: thumb_path ch v season :: season_dir_of ch season :: fs,
         [.mkdir (season_dir_of ch season), .net_fetch v.thumbnail_url,
          .file_write (thumb_path ch v season), .file_write (nfo_path ch v season),
          .file_write (strm_path ch v season), .net_fetch v.id,
          .file_write (manifest_cache_path jmp v.id)]⟩ := by
  simp [process_video, hseason, hmem, allOkVideoEnv]

/-- C6: with `maxVideos = 2` and five listed records, the scan keeps
exactly the two most recent by `upload_date`; the pass materializes
exactly those two (stub files written, count = 2). -/
theorem max_videos_two_of_five (env : SyncEnv) (ch : Channel) (jmp : Str)
    (cfg : Config) (now : Nat) (fs : List Str) (fetched : List VideoInfo)
    (handle nm : Str) (mad : Option Nat)
    (hsrc : ch.source = .Channel handle nm (some 2) mad)
    (hlist : env.listing = some fetched)
    (hlen : fetched.length = 5)
    (hnodup : fetched.Nodup)
    (hstruct : env.channel_structure_ok = true)
    (hsave : env.save_ok = true)
    (henv : ∀ v, env.video_env v = allOkVideoEnv)
    (hseason : ∀ v ∈ fetched, ∃ s, get_season_from_date v.upload_date = some s)
    (hfresh : ∀ v ∈ fetched, ∀ s, strm_path ch v s ∉ fs)
    (hdistinct : ∀ a ∈ fetched, ∀ b ∈ fetched, a ≠ b →
        ∀ sa sb, strm_path ch a sa ≠ strm_path ch b sb) :
    ∃ a b rest2 sa sb,
      scan_videos env.listing ch.source = .ok [a, b]
    ∧ List.Perm fetched (a :: b :: rest2)
    ∧ lexLe b.upload_date a.upload_date = true
    ∧ (∀ w ∈ rest2, lexLe w.upload_date a.upload_date = true
        ∧ lexLe w.upload_date b.upload_date = true)
    ∧ get_season_from_date a.upload_date = some sa
    ∧ get_season_from_date b.upload_date = some sb
    ∧ (process_new_videos env ch jmp cfg now fs).result = .ok 2
    ∧ strm_path ch a sa ∈ (process_new_videos env ch jmp cfg now fs).fs
    ∧ strm_path ch b sb ∈ (process_new_videos env ch jmp cfg now fs).fs := by
  have hperm : List.Perm
      (fetched.mergeSort fun u v => lexLe v.upload_date u.upload_date) fetched :=
    List.mergeSort_perm fetched _
  have hslen : (fetched.mergeSort fun u v => lexLe v.upload_date u.upload_date).length = 5 := by
    rw [List.length_mergeSort, hlen]
  have hpw : (fetched.mergeSort fun u v => lexLe v.upload_date u.upload_date).Pairwise
      (fun u v => lexLe v.upload_date u.upload_date) :=
    List.sorted_mergeSort
      (by intro u v w h1 h2; exact lexLe_trans w.upload_date v.upload_date u.upload_date h2 h1)
      (by intro u v
          rcases lexLe_total v.upload_date u.upload_date with h | h <;> simp [h])
      fetched
  obtain ⟨a, b, rest2, hshape⟩ : ∃ a b r,
      fetched.mergeSort (fun u v => lexLe v.upload_date u.upload_date) = a :: b :: r := by
    cases hm : fetched.mergeSort fun u v => lexLe v.upload_date u.upload_date with
    | nil => rw [hm] at hslen; cases hslen
    | cons a t =>
      cases t with
      | nil => rw [hm] at hslen; simp at hslen
      | cons b r => exact ⟨a, b, r, rfl⟩
  rw [hshape] at hperm hpw
  have hamem : a ∈ fetched := hperm.mem_iff.mp (by simp)
  have hbmem : b ∈ fetched := hperm.mem_iff.mp (by simp)
  have hsnd : (a :: b :: rest2).Nodup := hperm.nodup_iff.mpr hnodup
  have hab : a ≠ b := by
    intro h
    rw [h] at hsnd
    simp at hsnd
  rcases List.pairwise_cons.mp hpw with ⟨hpa, hpw2⟩
  rcases List.pairwise_cons.mp hpw2 with ⟨hpb, _⟩
  obtain ⟨sa, hsa⟩ := hseason a hamem
  obtain ⟨sb, hsb⟩ := hseason b hbmem
  have hscan : scan_videos env.listing ch.source = .ok [a, b] := by
    rw [scan_videos.eq_def, hlist]
    simp only [hsrc, hshape]
    rfl
  have hpva := process_video_all_ok ch a jmp fs sa hsa (hfresh a hamem sa)
  have hbfresh : strm_path ch b sb ∉
      (manifest_cache_path jmp a.id :: strm_path ch a sa :: nfo_path ch a sa
        :: thumb_path ch a sa :: season_dir_of ch sa :: fs) := by
    intro hmem
    rcases List.mem_cons.mp hmem with hm | hmem
    · exact ne_of_getLast _ _ _ _ (strm_path_getLast ch b sb) (cache_path_getLast jmp a.id)
        (by decide) hm
    rcases List.mem_cons.mp hmem with hm | hmem
    · exact hdistinct b hbmem a hamem (Ne.symm hab) sb sa hm
    rcases List.mem_cons.mp hmem with hm | hmem
    · exact ne_of_getLast _ _ _ _ (strm_path_getLast ch b sb) (nfo_path_getLast ch a sa)
        (by decide) hm
    rcases List.mem_cons.mp hmem with hm | hmem
    · exact ne_of_getLast _ _ _ _ (strm_path_getLast ch b sb) (thumb_path_getLast ch a sa)
        (by decide) hm
    rcases List.mem_cons.mp hmem with hm | hmem
    · obtain ⟨d, hd, hdir⟩ := season_dir_getLast ch sa
      exact ne_of_getLast _ _ _ _ (strm_path_getLast ch b sb) hdir
        (Ne.symm (digitChar_ne_m d hd)) hm
    · exact hfresh b hbmem sb hmem
  have hpvb := process_video_all_ok ch b jmp _ sb hsb hbfresh
  have hloop : process_loop env ch jmp [a, b] fs 0
      = (2, manifest_cache_path jmp b.id :: strm_path ch b sb :: nfo_path ch b sb
          :: thumb_path ch b sb :: season_dir_of ch sb
          :: manifest_cache_path jmp a.id :: strm_path ch a sa :: nfo_path ch a sa
          :: thumb_path ch a sa :: season_dir_of ch sa :: fs) := by
    rw [process_loop, henv a, hpva]
    show process_loop env ch jmp [b] _ 1 = _
    rw [process_loop, henv b, hpvb]
    rfl
  cases hsf : set_first_watermark cfg.channels ch.id now with
  | mk chans found =>
  have hrun : process_new_videos env ch jmp cfg now fs
      = if found then
          (if env.save_ok then
            ⟨.ok 2, { cfg with channels := chans },
              manifest_cache_path jmp b.id :: strm_path ch b sb :: nfo_path ch b sb
                :: thumb_path ch b sb :: season_dir_of ch sb
                :: manifest_cache_path jmp a.id :: strm_path ch a sa :: nfo_path ch a sa
                :: thumb_path ch a sa :: season_dir_of ch sa :: fs⟩
           else
            ⟨.error .saveFailed, { cfg with channels := chans },
              manifest_cache_path jmp b.id :: strm_path ch b sb :: nfo_path ch b sb
                :: thumb_path ch b sb :: season_dir_of ch sb
                :: manifest_cache_path jmp a.id :: strm_path ch a sa :: nfo_path ch a sa
                :: thumb_path ch a sa :: season_dir_of ch sa :: fs⟩)
        else ⟨.ok 2, cfg,
              manifest_cache_path jmp b.id :: strm_path ch b sb :: nfo_path ch b sb
                :: thumb_path ch b sb :: season_dir_of ch sb
                :: manifest_cache_path jmp a.id :: strm_path ch a sa :: nfo_path ch a sa
                :: thumb_path ch a sa :: season_dir_of ch sa :: fs⟩ := by
    rw [process_new_videos, hstruct]
    simp [hscan, hloop, hsf]
  refine ⟨a, b, rest2, sa, sb, hscan, hperm.symm, hpa b (by simp), ?_, hsa, hsb, ?_, ?_, ?_⟩
  · intro w hw
    exact ⟨hpa w (by simp [hw]), hpb w hw⟩
  · rw [hrun]
    by_cases hfd : found = true
    · rw [if_pos hfd, if_pos hsave]
    · rw [if_neg hfd]
  · rw [hrun]
    by_cases hfd : found = true
    · rw [if_pos hfd, if_pos hsave]; simp
    · rw [if_neg hfd]; simp
  · rw [hrun]
    by_cases hfd : found = true
    · rw [if_pos hfd, if_pos hsave]; simp
    · rw [if_neg hfd]; simp


theorem strm_path_ne_of_fname_ne (ch : Channel) (a b : VideoInfo) (sa sb : Nat)
    (hlen : (safe_filename_of a).length = (safe_filename_of b).length)
    (hne : safe_filename_of a ≠ safe_filename_of b) :
    strm_path ch a sa ≠ strm_path ch b sb := by
  intro h
  rw [strm_path, strm_path, pathJoin, pathJoin, List.append_assoc, List.append_assoc] at h
  have hl : (['/'] ++ (safe_filename_of a ++ str ".strm")).length
      = (['/'] ++ (safe_filename_of b ++ str ".strm")).length := by
    simp [hlen]
  have h2 := (List.append_inj' h hl).2
  simp only [List.cons_append, List.nil_append, List.cons.injEq, true_and] at h2
  exact hne (List.append_inj' h2 rfl).1


theorem max_videos_two_of_five_witness :
    ∃ a b rest2 sa sb,
      scan_videos exFiveEnv.listing exChannel2.source = .ok [a, b]
    ∧ List.Perm exFive (a :: b :: rest2)
    ∧ lexLe b.upload_date a.upload_date = true
    ∧ (∀ w ∈ rest2, lexLe w.upload_date a.upload_date = true
        ∧ lexLe w.upload_date b.upload_date = true)
    ∧ get_season_from_date a.upload_date = some sa
    ∧ get_season_from_date b.upload_date = some sb
    ∧ (process_new_videos exFiveEnv exChannel2 (str "/media/youtube") exConfig 7 []).result
        = .ok 2
    ∧ strm_path exChannel2 a sa
        ∈ (process_new_videos exFiveEnv exChannel2 (str "/media/youtube") exConfig 7 []).fs
    ∧ strm_path exChannel2 b sb
        ∈ (process_new_videos exFiveEnv exChannel2 (str "/media/youtube") exConfig 7 []).fs := by
  apply max_videos_two_of_five exFiveEnv exChannel2 (str "/media/youtube") exConfig 7 []
    exFive (str "h") (str "H") none rfl rfl (by decide) (by decide) rfl rfl (fun v => rfl)
  · intro v hv
    fin_cases hv <;> exact ⟨2024, by decide⟩
  · intro v _ s
    simp
  · intro a ha b hb hne sa sb
    fin_cases ha <;> fin_cases hb <;>
      first
        | exact absurd rfl hne
        | exact strm_path_ne_of_fname_ne _ _ _ _ _ (by decide) (by decide)

end YtStrm
